import Mathlib

/-!
# Verification of the network-simulator core

A shallow embedding, in Lean 4, of the core of the `network-simulator`
Rust crate: the packet codec (`src/packet/mod.rs`), the ICMP/ICMPv6
builders (`src/icmp/mod.rs`), the topology and routing engines
(`src/topology/*`, `src/routing/*`), the link simulator
(`src/simulation/mod.rs`), the forwarding selector
(`src/forwarding/mod.rs`) and the hop-by-hop processors
(`src/processor.rs`), together with theorems settling the stated
properties of these components.

Modelling conventions:
* Machine integers (`u8`, `u16`, `u32`, `u64`) are modelled as `Nat`,
  with `% 2^w` written out at the points where the Rust code performs a
  narrowing cast (`as u8`, `as u16`).  Saturating subtraction on `Nat`
  is Lean's truncated subtraction, matching `saturating_sub`.
* Byte buffers (`Vec<u8>`, `&[u8]`) are `List Nat`.
* `f32` / `f64` values (`loss_percent` and the loss draw) are modelled
  as `ℚ`; the only operation performed on them is an order comparison.
* The process-wide RNG (`StdRng` behind `GLOBAL_RNG`) is modelled as an
  ambient stream `draws : Nat → ℚ` together with a cursor into it; the
  source never calls `init_rng`, so the stream is entropy-determined
  and is a parameter of every run.
* `DefaultHasher` (an external `std` component) is modelled as an
  opaque parameter `hash`; theorems quantify over it, and concrete
  evaluations avoid the load-balance branch where it is consulted.
* In-place mutation is modelled by explicit state passing.
* A `Vec` index panic (`candidates[0]` on an empty vector in the
  forwarding selector) is modelled as returning no selection, which
  terminates the forwarding of the packet exactly like the adjacent
  `break` arms; all concrete evaluations below stay away from that
  state.
* Timers (`sleep`) have no observable effect on any modelled state and
  are omitted.
-/

/-! ## One's-complement checksum arithmetic (src/packet/mod.rs, src/icmp/mod.rs)

The Rust sources close every checksum computation with the loop

    while (sum >> 16) != 0 { sum = (sum & 0xFFFF) + (sum >> 16); }

followed by `!(sum as u16)`.  `foldCarry` is that loop. -/

def foldCarry (s : Nat) : Nat :=
  if s < 65536 then s
  else foldCarry (s % 65536 + s / 65536)
termination_by s
decreasing_by
  rename_i h
  omega

/-- One pass of the 16-bit big-endian word sum used by both checksum
routines.  `skipTen` is `true` for `calculate_ipv4_checksum`, which
skips the checksum field at bytes 10..12, and `false` for the plain
ICMP body sums.  An odd trailing byte is padded with a zero byte, as in
the sources. -/
def sum16 (skipTen : Bool) (data : List Nat) (i : Nat) : Nat :=
  if i < data.length then
    (if skipTen ∧ i = 10 then 0
     else if i + 1 < data.length then data.getD i 0 * 256 + data.getD (i + 1) 0
     else data.getD i 0 * 256)
    + sum16 skipTen data (i + 2)
  else 0
termination_by data.length - i
decreasing_by
  rename_i h
  omega

/-! ## Packet codec (src/packet/mod.rs) -/

/-- `calculate_ipv4_checksum` from src/packet/mod.rs: one's-complement
sum of 16-bit big-endian words over bytes `0 .. IHL*4`, skipping the
checksum field at bytes 10..12. -/
def calculate_ipv4_checksum (header : List Nat) : Nat :=
  if header.length < 20 then 0
  else
    let ihl := header.getD 0 0 % 16 * 4
    let h := header.take (min ihl header.length)
    65535 - foldCarry (sum16 true h 0)

/-- `update_ipv4_checksum` from src/packet/mod.rs: zero the checksum
field, recompute, and store the result big-endian at bytes 10..12. -/
def update_ipv4_checksum (packet : List Nat) : List Nat :=
  if packet.length < 20 then packet
  else
    let p0 := (packet.set 10 0).set 11 0
    let c := calculate_ipv4_checksum p0
    (p0.set 10 (c / 256 % 256)).set 11 (c % 256)

/-- The same word sum as `calculate_ipv4_checksum` but with the
checksum field included — the verification form used by the spec
("running the checksum algorithm over the post-state and expecting 0
when the checksum field is included"). -/
def ipv4_checksum_with_field (header : List Nat) : Nat :=
  if header.length < 20 then 0
  else
    let ihl := header.getD 0 0 % 16 * 4
    let h := header.take (min ihl header.length)
    65535 - foldCarry (sum16 false h 0)

/-- `std::net::IpAddr`: a v4 address is its four octets, a v6 address
its sixteen octets. -/
inductive IpAddr where
  | V4 (octets : List Nat)
  | V6 (octets : List Nat)
deriving DecidableEq, Repr

/-- `PacketMeta` from src/packet/mod.rs. -/
structure PacketMeta where
  src_ip : IpAddr
  dst_ip : IpAddr
  src_port : Nat
  dst_port : Nat
  protocol : Nat
  ttl : Nat
  raw : List Nat
deriving DecidableEq, Repr

/-- `PacketMeta::decrement_ttl` from src/packet/mod.rs.  Mutation is
modelled by returning the new `PacketMeta`. -/
def decrement_ttl (p : PacketMeta) : Except String PacketMeta :=
  if p.ttl = 0 then .error "TTL already zero"
  else
    let p1 : PacketMeta := { p with ttl := p.ttl - 1 }
    match p.src_ip with
    | .V4 _ =>
      if 8 < p.raw.length then
        let raw1 := p.raw.set 8 (p.raw.getD 8 0 - 1)
        .ok { p1 with raw := update_ipv4_checksum raw1 }
      else .ok p1
    | .V6 _ =>
      if 7 < p.raw.length then
        .ok { p1 with raw := p.raw.set 7 (p.raw.getD 7 0 - 1) }
      else .ok p1

/-- `parse` from src/packet/mod.rs. -/
def parse (data : List Nat) : Except String PacketMeta :=
  if data.length < 20 then .error "packet too short for IPv4 header"
  else
    let version_ihl := data.getD 0 0
    let version := version_ihl / 16
    if version = 4 then
      let ihl := version_ihl % 16 * 4
      if ihl < 20 then .error "invalid IHL"
      else
        let total_len := data.getD 2 0 * 256 + data.getD 3 0
        if data.length < total_len then .error "packet length less than total_len"
        else
          let protocol := data.getD 9 0
          let ports :=
            if (protocol = 6 ∨ protocol = 17) ∧ ihl + 4 ≤ data.length then
              (data.getD ihl 0 * 256 + data.getD (ihl + 1) 0,
               data.getD (ihl + 2) 0 * 256 + data.getD (ihl + 3) 0)
            else (0, 0)
          .ok { src_ip := IpAddr.V4 [data.getD 12 0, data.getD 13 0,
                                     data.getD 14 0, data.getD 15 0],
                dst_ip := IpAddr.V4 [data.getD 16 0, data.getD 17 0,
                                     data.getD 18 0, data.getD 19 0],
                src_port := ports.1, dst_port := ports.2,
                protocol := protocol, ttl := data.getD 8 0, raw := data }
    else if version = 6 then
      if data.length < 40 then .error "packet too short for IPv6 header"
      else
        let next_header0 := data.getD 6 0
        if next_header0 = 0 ∧ data.length < 42 then
          .error "packet too short for Hop-by-Hop header"
        else
          let next_header := if next_header0 = 0 then data.getD 40 0 else next_header0
          let transport_offset :=
            if next_header0 = 0 then 40 + (data.getD 41 0 + 1) * 8 else 40
          let ports :=
            if (next_header = 6 ∨ next_header = 17) ∧ transport_offset + 4 ≤ data.length then
              (data.getD transport_offset 0 * 256 + data.getD (transport_offset + 1) 0,
               data.getD (transport_offset + 2) 0 * 256 + data.getD (transport_offset + 3) 0)
            else (0, 0)
          .ok { src_ip := IpAddr.V6 ((data.drop 8).take 16),
                dst_ip := IpAddr.V6 ((data.drop 24).take 16),
                src_port := ports.1, dst_port := ports.2,
                protocol := next_header, ttl := data.getD 7 0, raw := data }
    else .error "unsupported IP version"

/-- The 20-byte IPv4 TCP packet used as concrete evaluation input. -/
def c5data : List Nat :=
  [69, 0, 0, 20, 0, 0, 0, 0, 64, 6, 166, 196, 10, 0, 0, 1, 10, 0, 1, 1]

/-- The `PacketMeta` that `parse` produces from `c5data`. -/
def c5pkt : PacketMeta :=
  { src_ip := IpAddr.V4 [10, 0, 0, 1], dst_ip := IpAddr.V4 [10, 0, 1, 1],
    src_port := 0, dst_port := 0, protocol := 6, ttl := 64, raw := c5data }

/-- An IPv4 packet with an empty raw buffer and ttl 5, for the
concrete evaluation of `C10_decrement_ttl_short_raw`. -/
def c10pkt : PacketMeta :=
  { src_ip := IpAddr.V4 [10, 0, 0, 1], dst_ip := IpAddr.V4 [10, 0, 1, 1],
    src_port := 0, dst_port := 0, protocol := 6, ttl := 5, raw := [] }

/-! ## ICMP / ICMPv6 builders (src/icmp/mod.rs) -/

/-- `icmpv6_checksum`: one's-complement sum over the pseudo-header
(src, dst, upper-layer length, next-header 58) and the ICMPv6
message. -/
def icmpv6_checksum (src dst icmp : List Nat) : Nat :=
  let pseudo := sum16 false src 0 + sum16 false dst 0
    + icmp.length / 65536 % 65536 + icmp.length % 65536 + 58
  65535 - foldCarry (pseudo + sum16 false icmp 0)

/-- `calculate_icmp_checksum` (RFC 792 body sum). -/
def calculate_icmp_checksum (data : List Nat) : Nat :=
  65535 - foldCarry (sum16 false data 0)

/-- `generate_icmpv6_error` from src/icmp/mod.rs: 40-byte IPv6 header
with src/dst swapped from the triggering packet, ICMPv6 header (4-byte
rest-of-header appended only for type 3), as much of the original
packet as fits in 1280 bytes, payload length and checksum patched in
place. -/
def generate_icmpv6_error (packet : PacketMeta) (error_type code : Nat) : List Nat :=
  let src := match packet.dst_ip with
    | IpAddr.V6 o => o
    | _ => List.replicate 16 0
  let dst := match packet.src_ip with
    | IpAddr.V6 o => o
    | _ => List.replicate 16 0
  let hdr := [0x60, 0, 0, 0, 0, 0, 58, 64] ++ src ++ dst
  let icmpHdr := [error_type, code, 0, 0] ++ (if error_type = 3 then [0, 0, 0, 0] else [])
  let max_payload := 1280 - (hdr.length + icmpHdr.length)
  let copy_len := min max_payload packet.raw.length
  let buf := hdr ++ icmpHdr ++ packet.raw.take copy_len
  let payload_len := (buf.length - 40) % 65536
  let buf2 := (buf.set 4 (payload_len / 256 % 256)).set 5 (payload_len % 256)
  let checksum := icmpv6_checksum src dst (buf2.drop 40)
  (buf2.set 42 (checksum / 256 % 256)).set 43 (checksum % 256)

/-- `generate_icmp_error` from src/icmp/mod.rs: 20-byte IPv4 header
(TTL 64, protocol 1) with src/dst swapped, 8-byte ICMP header with a
zero rest-of-header, original IP header plus first 8 payload bytes,
total length and both checksums patched in place. -/
def generate_icmp_error (original : PacketMeta) (error_type code : Nat) : List Nat :=
  let src_ip := match original.dst_ip with
    | IpAddr.V4 o => o
    | _ => [0, 0, 0, 0]
  let dst_ip := match original.src_ip with
    | IpAddr.V4 o => o
    | _ => [0, 0, 0, 0]
  let copy_len := min 28 original.raw.length
  let pkt := [0x45, 0x00, 0, 0, 0, 0, 0, 0, 64, 1, 0, 0] ++ src_ip ++ dst_ip
    ++ [error_type, code, 0, 0] ++ [0, 0, 0, 0] ++ original.raw.take copy_len
  let total_len := pkt.length % 65536
  let pkt2 := (pkt.set 2 (total_len / 256 % 256)).set 3 (total_len % 256)
  let pkt3 := update_ipv4_checksum (pkt2.take 20) ++ pkt2.drop 20
  let icmp_checksum := calculate_icmp_checksum (pkt3.drop 20)
  (pkt3.set 22 (icmp_checksum / 256 % 256)).set 23 (icmp_checksum % 256)

/-- `generate_fragmentation_needed` from src/icmp/mod.rs: as
`generate_icmp_error` with type 3 code 4, except that the ICMP header
is type, code, checksum and then immediately the 2-byte next-hop MTU
(6 bytes in total — no unused pair), followed by the copied original
bytes. -/
def generate_fragmentation_needed (original : PacketMeta) (mtu : Nat) : List Nat :=
  let src_ip := match original.dst_ip with
    | IpAddr.V4 o => o
    | _ => [0, 0, 0, 0]
  let dst_ip := match original.src_ip with
    | IpAddr.V4 o => o
    | _ => [0, 0, 0, 0]
  let copy_len := min 28 original.raw.length
  let pkt := [0x45, 0x00, 0, 0, 0, 0, 0, 0, 64, 1, 0, 0] ++ src_ip ++ dst_ip
    ++ [3, 4, 0, 0] ++ [mtu % 65536 / 256, mtu % 65536 % 256] ++ original.raw.take copy_len
  let total_len := pkt.length % 65536
  let pkt2 := (pkt.set 2 (total_len / 256 % 256)).set 3 (total_len % 256)
  let pkt3 := update_ipv4_checksum (pkt2.take 20) ++ pkt2.drop 20
  let icmp_checksum := calculate_icmp_checksum (pkt3.drop 20)
  (pkt3.set 22 (icmp_checksum / 256 % 256)).set 23 (icmp_checksum % 256)

/-- The 20-byte IPv4 packet from the repository's own fragmentation
test (src 192.168.0.1, dst 192.168.0.2, protocol 6). -/
def c3pkt : PacketMeta :=
  { src_ip := IpAddr.V4 [192, 168, 0, 1], dst_ip := IpAddr.V4 [192, 168, 0, 2],
    src_port := 0, dst_port := 0, protocol := 6, ttl := 64,
    raw := [69, 0, 0, 0, 0, 0, 0, 0, 0, 6, 0, 0, 192, 168, 0, 1, 192, 168, 0, 2] }

/-- A 40-byte IPv6 packet (2001:db8::1 → 2001:db8::2). -/
def c3pkt6 : PacketMeta :=
  { src_ip := IpAddr.V6 [32, 1, 13, 184, 0, 0, 0, 0, 0, 0, 0, 0, 0, 0, 0, 1],
    dst_ip := IpAddr.V6 [32, 1, 13, 184, 0, 0, 0, 0, 0, 0, 0, 0, 0, 0, 0, 2],
    src_port := 0, dst_port := 0, protocol := 6, ttl := 64,
    raw := [96, 0, 0, 0, 0, 0, 6, 64, 32, 1, 13, 184, 0, 0, 0, 0, 0, 0, 0, 0, 0, 0, 0, 1,
            32, 1, 13, 184, 0, 0, 0, 0, 0, 0, 0, 0, 0, 0, 0, 2] }

/-! ## Topology (src/topology/router.rs, link.rs, fabric.rs) -/

/-- `RouterId` wraps a string; equality and hashing are by the string. -/
abbrev RouterId := String

/-- `LinkId`: an unordered pair of router ids. -/
structure LinkId where
  a : RouterId
  b : RouterId
deriving DecidableEq, Repr

/-- `LinkId::new`: canonicalized by lexicographic ordering. -/
def LinkId.new (r1 r2 : RouterId) : LinkId :=
  if r1 ≤ r2 then { a := r1, b := r2 } else { a := r2, b := r1 }

/-- `LinkConfig`.  `loss_percent` (`f32`) is modelled as `ℚ`. -/
structure LinkConfig where
  mtu : Option Nat
  delay_ms : Nat
  jitter_ms : Nat
  loss_percent : ℚ
  load_balance : Bool
deriving DecidableEq, Repr

/-- `Link` without its atomic counter; counters are indexed by the
link's position in `Fabric.links` and live in the processor state. -/
structure Link where
  id : LinkId
  cfg : LinkConfig
deriving DecidableEq, Repr

/-- The fabric: routers and links in insertion order. -/
structure Fabric where
  routers : List RouterId
  links : List Link

/-- Guaranteed by `Fabric::add_router` / `add_link`: distinct router
nodes, and both endpoints of every link present. -/
def Fabric.wf (f : Fabric) : Prop :=
  f.routers.Nodup ∧ ∀ l ∈ f.links, l.id.a ∈ f.routers ∧ l.id.b ∈ f.routers

/-- Neighbor iteration for a router, one entry per incident link
(`petgraph`'s adjacency iteration: most recently inserted first). -/
def edgesOf (f : Fabric) (r : RouterId) : List (RouterId × LinkConfig) :=
  f.links.reverse.filterMap (fun l =>
    if l.id.a = r then some (l.id.b, l.cfg)
    else if l.id.b = r then some (l.id.a, l.cfg) else none)

/-- `Fabric::incident_links`, keeping each link's index (the index
keys the per-link counter in the processor state). -/
def incident_links (f : Fabric) (r : RouterId) : List (Nat × Link) :=
  f.links.enum.reverse.filter (fun p => p.2.id.a = r ∨ p.2.id.b = r)

/-! ## Routing engine (src/routing/mod.rs, src/routing/multipath.rs) -/

/-- The Dijkstra edge weight: `if w == 0 then 1 else w`. -/
def w (cfg : LinkConfig) : Nat :=
  if cfg.delay_ms = 0 then 1 else cfg.delay_ms

def optMin : Option Nat → Option Nat → Option Nat
  | none, bo => bo
  | some a, none => some a
  | some a, some b => some (min a b)

def lookupD (m : List (RouterId × Option Nat)) (r : RouterId) : Option Nat :=
  match m.lookup r with
  | some v => v
  | none => none

/-- One relaxation: the best distance to `r` through any neighbor. -/
def relaxNeighbors (f : Fabric) (m : List (RouterId × Option Nat)) (r : RouterId) :
    Option Nat :=
  (edgesOf f r).foldl (fun acc p => optMin acc ((lookupD m p.1).map (· + w p.2))) none

/-- Bellman–Ford value iteration (round `n` holds the cheapest walks
of at most `n` edges). -/
def distIter (f : Fabric) (src : RouterId) : Nat → List (RouterId × Option Nat)
  | 0 => f.routers.map (fun r => (r, if r = src then some 0 else none))
  | n + 1 =>
    let prev := distIter f src n
    f.routers.map (fun r => (r, optMin (lookupD prev r) (relaxNeighbors f prev r)))

def dijkstraFuel (f : Fabric) : Nat := f.routers.length

/-- Model of `petgraph::algo::dijkstra` under the weight above:
shortest-path distances from `src` (absent key = unreachable), here
computed by value iteration run until it provably stabilizes — see
`dijkstraDist_shortest`. -/
def dijkstraDist (f : Fabric) (src : RouterId) (r : RouterId) : Option Nat :=
  lookupD (distIter f src (dijkstraFuel f)) r

/-- An edge between `u` and `v` of weight `cw`. -/
def edgeW (f : Fabric) (u v : RouterId) (cw : Nat) : Prop :=
  ∃ cfg, (v, cfg) ∈ edgesOf f u ∧ cw = w cfg

/-- A walk from `src` of total cost `c` using `n` edges. -/
inductive Walk (f : Fabric) (src : RouterId) : RouterId → Nat → Nat → Prop
  | refl : Walk f src src 0 0
  | step {u v c n cw} : Walk f src u c n → edgeW f u v cw → Walk f src v (c + cw) (n + 1)

/-- `d` is the shortest-path distance from `src` to `r`. -/
def IsShortestDist (f : Fabric) (src r : RouterId) (d : Nat) : Prop :=
  (∃ n, Walk f src r d n) ∧ ∀ c n, Walk f src r c n → d ≤ c

/-- Reachable by some walk. -/
def Reaches (f : Fabric) (src r : RouterId) : Prop :=
  ∃ c n, Walk f src r c n

/-- `RouteEntry`. -/
structure RouteEntry where
  next_hop : RouterId
  total_cost : Nat
deriving DecidableEq, Repr

/-- `RoutingTable`. -/
structure RoutingTable where
  tun_a : RouteEntry
  tun_b : RouteEntry
deriving DecidableEq, Repr

/-- The first neighbor `N` (in edge-iteration order) whose
`dist(N) + w` equals `dist(R)`; the source's `chosen` loop. -/
def firstQualifying (f : Fabric) (dist : RouterId → Option Nat) (r : RouterId) :
    Option RouterId :=
  (edgesOf f r).findSome? (fun p =>
    match dist p.1, dist r with
    | some dn, some dr => if dn + w p.2 = dr then some p.1 else none
    | _, _ => none)

/-- One column of `compute_routing`: cost is the Dijkstra distance
(`u32::MAX` when absent), next hop the ingress sentinel / first
qualifying neighbor / self. -/
def route_for (f : Fabric) (dist : RouterId → Option Nat) (ingress r : RouterId) :
    RouteEntry :=
  { next_hop :=
      if r = ingress then r else (firstQualifying f dist r).getD r,
    total_cost := (dist r).getD 4294967295 }

/-- `compute_routing` from src/routing/mod.rs: the `HashMap` is
modelled as the partial function it represents. -/
def compute_routing (f : Fabric) (ingress_a ingress_b : RouterId) :
    RouterId → Option RoutingTable :=
  fun r =>
    if r ∈ f.routers then
      some { tun_a := route_for f (dijkstraDist f ingress_a) ingress_a r,
             tun_b := route_for f (dijkstraDist f ingress_b) ingress_b r }
    else none

/-- `MultiPathTable`. -/
structure MultiPathTable where
  tun_a : List RouteEntry
  tun_b : List RouteEntry
deriving DecidableEq, Repr

/-- The entry-accumulation loop body of `compute_multi_path_routing`:
keep all entries achieving the minimum cost, with `min_cost`
initialized to `u32::MAX`. -/
def mpStep (dist : RouterId → Option Nat) (st : List RouteEntry × Nat)
    (p : RouterId × LinkConfig) : List RouteEntry × Nat :=
  match dist p.1 with
  | some dn =>
    let cost := dn + w p.2
    if cost < st.2 then ([{ next_hop := p.1, total_cost := cost }], cost)
    else if cost = st.2 then (st.1 ++ [{ next_hop := p.1, total_cost := cost }], st.2)
    else st
  | none => st

def compute_multi_path_entries (f : Fabric) (dist : RouterId → Option Nat)
    (r : RouterId) : List RouteEntry :=
  ((edgesOf f r).foldl (mpStep dist) ([], 4294967295)).1

/-- `compute_multi_path_routing` from src/routing/multipath.rs.  Note
that, as in the source, the `tun_a` entry list is built from the
distances from `ingress_b`, and `tun_b` from the distances from
`ingress_a`. -/
def compute_multi_path_routing (f : Fabric) (ingress_a ingress_b : RouterId) :
    RouterId → Option MultiPathTable :=
  fun r =>
    if r ∈ f.routers then
      some { tun_a := compute_multi_path_entries f (dijkstraDist f ingress_b) r,
             tun_b := compute_multi_path_entries f (dijkstraDist f ingress_a) r }
    else none

/-! ## Correctness of the value-iteration model of `dijkstra` -/

/-- `o` holds a value that is at most `c`. -/
def oLE (o : Option Nat) (c : Nat) : Prop := ∃ d, o = some d ∧ d ≤ c

/-- Every value held by `o` is at least `c`. -/
def oGE (o : Option Nat) (c : Nat) : Prop := ∀ d, o = some d → c ≤ d

/-- A walk annotated with its vertex sequence (every vertex except the
final one, in order). -/
inductive ChainW (f : Fabric) : RouterId → List RouterId → RouterId → Nat → Prop
  | refl (s : RouterId) : ChainW f s [] s 0
  | step {s : RouterId} {vs : List RouterId} {u v : RouterId} {c cw : Nat} :
      ChainW f s vs u c → edgeW f u v cw → ChainW f s (vs ++ [u]) v (c + cw)

/-- The spec-side qualification predicate: neighbor `p` lies on a
shortest path toward the traffic source (spec wording: "the first
neighbor N with dist(N) + w(R,N) = dist(R)"). -/
def QualifiesSpec (f : Fabric) (src r : RouterId) (p : RouterId × LinkConfig) : Prop :=
  ∃ dn dr, IsShortestDist f src p.1 dn ∧ IsShortestDist f src r dr ∧ dn + w p.2 = dr

/-- Spec-side description of the chosen next hop: either no neighbor
qualifies (self sentinel) or it is the first qualifying neighbor in
edge-iteration order. -/
def NextHopSpec (f : Fabric) (src r : RouterId) (nh : RouterId) : Prop :=
  ((∀ p ∈ edgesOf f r, ¬ QualifiesSpec f src r p) ∧ nh = r) ∨
  (∃ l1 p l2, edgesOf f r = l1 ++ p :: l2 ∧ QualifiesSpec f src r p ∧
    (∀ q ∈ l1, ¬ QualifiesSpec f src r q) ∧ nh = p.1)

/-- A loss-free, jitter-free link configuration with the given delay
(scenario 5 of the spec uses only such links). -/
def lc (d : Nat) : LinkConfig :=
  { mtu := none, delay_ms := d, jitter_ms := 0, loss_percent := 0, load_balance := false }

/-- The three-router fabric of scenario 5: `Rx0y0`, `Rx0y1`, `Rx0y2`
with links `Rx0y0–Rx0y1` (delay 5), `Rx0y0–Rx0y2` (delay 10) and
`Rx0y1–Rx0y2` (delay 5). -/
def s5 : Fabric :=
  { routers := ["Rx0y0", "Rx0y1", "Rx0y2"],
    links := [ { id := { a := "Rx0y0", b := "Rx0y1" }, cfg := lc 5 },
               { id := { a := "Rx0y0", b := "Rx0y2" }, cfg := lc 10 },
               { id := { a := "Rx0y1", b := "Rx0y2" }, cfg := lc 5 } ] }

/-- The running minimum of the ECMP loop: neighbor costs folded with
`min`, starting from `u32::MAX`-style initial value `m`. -/
def minFold (dist : RouterId → Option Nat) (m : Nat)
    (E : List (RouterId × LinkConfig)) : Nat :=
  E.foldl (fun acc p =>
    match (dist p.1).map (· + w p.2) with
    | some c => min acc c
    | none => acc) m

/-- One entry of the spec-side ECMP list: a neighbor whose cost equals
the minimum `M`. -/
def ecmpEntriesAt (dist : RouterId → Option Nat) (M : Nat)
    (p : RouterId × LinkConfig) : Option RouteEntry :=
  match (dist p.1).map (· + w p.2) with
  | some c => if c = M then some { next_hop := p.1, total_cost := c } else none
  | none => none

/-- Spec-side ECMP entry list: exactly the neighbors achieving the
minimum cost over the neighbor set, in edge-iteration order. -/
def ecmpEntriesSpec (f : Fabric) (dist : RouterId → Option Nat) (r : RouterId) :
    List RouteEntry :=
  (edgesOf f r).filterMap
    (ecmpEntriesAt dist (minFold dist 4294967295 (edgesOf f r)))

/-! ## Link simulation and packet processors (src/simulation/mod.rs,
src/forwarding/mod.rs, src/processor.rs) -/

/-- `Destination`. -/
inductive Destination
  | TunA
  | TunB
deriving DecidableEq, Repr

def opposite_destination : Destination → Destination
  | .TunA => .TunB
  | .TunB => .TunA

def is_ipv6 (p : PacketMeta) : Bool :=
  match p.src_ip with
  | .V6 _ => true
  | .V4 _ => false

/-- `SimulationError` outcomes of `simulate_link` (`Ok` included);
the `Other` variant is never constructed by the source. -/
inductive SimResult
  | ok
  | packetLost
  | mtuExceeded (packet_size mtu : Nat)
deriving DecidableEq, Repr

/-- `RouterStats`. -/
structure RouterStats where
  packets_received : Nat
  packets_forwarded : Nat
  packets_lost : Nat
  icmp_generated : Nat
deriving DecidableEq, Repr

def RouterStats.zero : RouterStats :=
  { packets_received := 0, packets_forwarded := 0, packets_lost := 0, icmp_generated := 0 }

/-- The mutable state threaded through processing: per-router stats
(`Router::increment_*` behind `router_index`), per-link atomic
counters (keyed by link insertion index), and the position in the
global RNG's draw stream. -/
structure ProcState where
  stats : RouterId → RouterStats
  counters : Nat → Nat
  cursor : Nat

def pstate0 : ProcState :=
  { stats := fun _ => RouterStats.zero, counters := fun _ => 0, cursor := 0 }

def increment_received (f : Fabric) (st : ProcState) (r : RouterId) : ProcState :=
  if r ∈ f.routers then
    { st with stats := fun x => if x = r then
        { st.stats x with packets_received := (st.stats x).packets_received + 1 }
      else st.stats x }
  else st

def increment_forwarded (f : Fabric) (st : ProcState) (r : RouterId) : ProcState :=
  if r ∈ f.routers then
    { st with stats := fun x => if x = r then
        { st.stats x with packets_forwarded := (st.stats x).packets_forwarded + 1 }
      else st.stats x }
  else st

def increment_icmp (f : Fabric) (st : ProcState) (r : RouterId) : ProcState :=
  if r ∈ f.routers then
    { st with stats := fun x => if x = r then
        { st.stats x with icmp_generated := (st.stats x).icmp_generated + 1 }
      else st.stats x }
  else st

def increment_lost (f : Fabric) (st : ProcState) (r : RouterId) : ProcState :=
  if r ∈ f.routers then
    { st with stats := fun x => if x = r then
        { st.stats x with packets_lost := (st.stats x).packets_lost + 1 }
      else st.stats x }
  else st

/-- `simulate_link`: counter bump first, MTU enforcement second, then
one loss draw from the global RNG (plus one jitter draw when
`jitter_ms > 0`); the draw stream (`StdRng` output, floats in
`[0,100)`) is a parameter.  Sleeping is invisible here. -/
def simulate_link (stream : Nat → ℚ) (cfg : LinkConfig) (idx : Nat) (len : Nat)
    (st : ProcState) : SimResult × ProcState :=
  let st1 : ProcState :=
    { st with counters := fun j => if j = idx then st.counters j + 1 else st.counters j }
  let rng : ProcState → SimResult × ProcState := fun s =>
    let loss := stream s.cursor < cfg.loss_percent
    let s2 : ProcState := { s with cursor := s.cursor + (if cfg.jitter_ms > 0 then 2 else 1) }
    if loss then (.packetLost, s2) else (.ok, s2)
  match cfg.mtu with
  | some mtu => if len > mtu then (.mtuExceeded len mtu, st1) else rng st1
  | none => rng st1

/-- `select_egress_link` from src/forwarding/mod.rs.  `hashFn` models
`DefaultHasher` over the 5-tuple and the summed counters; indexing
`candidates[0]` on an empty vector (a panic in the source) is
modelled as `none`. -/
def select_egress_link (hashFn : PacketMeta → Nat → Nat)
    (tables : RouterId → Option RoutingTable) (r : RouterId) (packet : PacketMeta)
    (links : List (Nat × Link)) (dest : Destination) (counters : Nat → Nat) :
    Option (Nat × Link) :=
  match tables r with
  | none => none
  | some t =>
    let next_hop := match dest with
      | .TunA => t.tun_a.next_hop
      | .TunB => t.tun_b.next_hop
    let candidates := links.filter (fun p =>
      (p.2.id.a == r && p.2.id.b == next_hop) || (p.2.id.b == r && p.2.id.a == next_hop))
    let candidates := if candidates.isEmpty then links else candidates
    let lb := candidates.filter (fun p => p.2.cfg.load_balance)
    if lb.isEmpty then candidates.get? 0
    else
      let total := (lb.map (fun p => counters p.1)).sum
      lb.get? (hashFn packet total % lb.length)

/-- The body of `process_packet`, with the remaining iteration budget
(`100 - hop_count`) as fuel; returns the final packet, state, and the
number of loop iterations executed. -/
def process_packet_loop (hashFn : PacketMeta → Nat → Nat) (stream : Nat → ℚ)
    (f : Fabric) (tables : RouterId → Option RoutingTable) :
    Nat → RouterId → PacketMeta → Destination → ProcState →
    PacketMeta × ProcState × Nat
  | 0, _, packet, _, st => (packet, st, 0)
  | fuel + 1, ingress, packet, dest, st =>
    let st := increment_received f st ingress
    if packet.ttl ≤ 1 then
      let icmp_bytes := if is_ipv6 packet then generate_icmpv6_error packet 3 0
        else generate_icmp_error packet 11 0
      let st := increment_icmp f st ingress
      match parse icmp_bytes with
      | .ok icmp_packet =>
        let res := process_packet_loop hashFn stream f tables fuel ingress icmp_packet
          (opposite_destination dest) st
        (res.1, res.2.1, res.2.2 + 1)
      | .error _ => (packet, st, 1)
    else
      match tables ingress with
      | none =>
        let icmp_bytes := if is_ipv6 packet then generate_icmpv6_error packet 3 0
          else generate_icmp_error packet 3 0
        let st := increment_icmp f st ingress
        match parse icmp_bytes with
        | .ok icmp_packet =>
          let res := process_packet_loop hashFn stream f tables fuel ingress icmp_packet
            (opposite_destination dest) st
          (res.1, res.2.1, res.2.2 + 1)
        | .error _ => (packet, st, 1)
      | some table =>
        let next_hop := match dest with
          | .TunA => table.tun_a.next_hop
          | .TunB => table.tun_b.next_hop
        if next_hop = ingress then (packet, st, 1)
        else
          match decrement_ttl packet with
          | .error _ => (packet, st, 1)
          | .ok packet =>
            match select_egress_link hashFn tables ingress packet
              (incident_links f ingress) dest st.counters with
            | none => (packet, st, 1)
            | some (li, link) =>
              let next_hop2 := if link.id.a = ingress then link.id.b else link.id.a
              match simulate_link stream link.cfg li packet.raw.length st with
              | (.mtuExceeded _ mtu, st) =>
                let icmp_bytes := if is_ipv6 packet then generate_icmpv6_error packet 2 0
                  else generate_fragmentation_needed packet mtu
                let st := increment_icmp f st ingress
                match parse icmp_bytes with
                | .ok icmp_packet =>
                  let res := process_packet_loop hashFn stream f tables fuel ingress
                    icmp_packet (opposite_destination dest) st
                  (res.1, res.2.1, res.2.2 + 1)
                | .error _ => (packet, st, 1)
              | (.packetLost, st) => (packet, increment_lost f st ingress, 1)
              | (.ok, st) =>
                let res := process_packet_loop hashFn stream f tables fuel next_hop2
                  packet dest (increment_forwarded f st ingress)
                (res.1, res.2.1, res.2.2 + 1)

/-- `process_packet` (hop budget 100). -/
def process_packet (hashFn : PacketMeta → Nat → Nat) (stream : Nat → ℚ)
    (f : Fabric) (tables : RouterId → Option RoutingTable) (ingress : RouterId)
    (packet : PacketMeta) (dest : Destination) (st : ProcState) :
    PacketMeta × ProcState × Nat :=
  process_packet_loop hashFn stream f tables 100 ingress packet dest st

/-- The candidate-link choice of `process_packet_multi`: links toward
any equal-cost next hop (falling back to all incident links), then
hash-based pick among load-balanced ones, else the first candidate
(`candidate_links[0]`, a panic on no incident links, is `none` here). -/
def choose_candidate_link (hashFn : PacketMeta → Nat → Nat) (packet : PacketMeta)
    (entries : List RouteEntry) (ilinks : List (Nat × Link)) (counters : Nat → Nat) :
    Option (Nat × Link) :=
  let candidate_links := ilinks.filter (fun p =>
    entries.any (fun e => e.next_hop == p.2.id.a || e.next_hop == p.2.id.b))
  let candidate_links := if candidate_links.isEmpty then ilinks else candidate_links
  let lb := candidate_links.filter (fun p => p.2.cfg.load_balance)
  if lb.isEmpty then candidate_links.get? 0
  else
    let total := (lb.map (fun p => counters p.1)).sum
    lb.get? (hashFn packet total % lb.length)

/-- The body of `process_packet_multi`.  Note its step order: TTL
decrement happens before the table lookup, there is no arrival
check, and an empty entry list breaks out silently. -/
def process_packet_multi_loop (hashFn : PacketMeta → Nat → Nat) (stream : Nat → ℚ)
    (f : Fabric) (tables : RouterId → Option MultiPathTable) :
    Nat → RouterId → PacketMeta → Destination → ProcState →
    PacketMeta × ProcState × Nat
  | 0, _, packet, _, st => (packet, st, 0)
  | fuel + 1, ingress, packet, dest, st =>
    let st := increment_received f st ingress
    if packet.ttl ≤ 1 then
      let icmp_bytes := if is_ipv6 packet then generate_icmpv6_error packet 3 0
        else generate_icmp_error packet 11 0
      let st := increment_icmp f st ingress
      match parse icmp_bytes with
      | .ok icmp_packet =>
        let res := process_packet_multi_loop hashFn stream f tables fuel ingress
          icmp_packet (opposite_destination dest) st
        (res.1, res.2.1, res.2.2 + 1)
      | .error _ => (packet, st, 1)
    else
      match decrement_ttl packet with
      | .error _ => (packet, st, 1)
      | .ok packet =>
        match tables ingress with
        | none =>
          let icmp_bytes := if is_ipv6 packet then generate_icmpv6_error packet 3 0
            else generate_icmp_error packet 3 0
          let st := increment_icmp f st ingress
          match parse icmp_bytes with
          | .ok icmp_packet =>
            let res := process_packet_multi_loop hashFn stream f tables fuel ingress
              icmp_packet (opposite_destination dest) st
            (res.1, res.2.1, res.2.2 + 1)
          | .error _ => (packet, st, 1)
        | some mtable =>
          let entries := match dest with
            | .TunA => mtable.tun_a
            | .TunB => mtable.tun_b
          if entries.isEmpty then (packet, st, 1)
          else
            match choose_candidate_link hashFn packet entries (incident_links f ingress)
              st.counters with
            | none => (packet, st, 1)
            | some (li, link) =>
              let next_hop2 := if link.id.a = ingress then link.id.b else link.id.a
              match simulate_link stream link.cfg li packet.raw.length st with
              | (.mtuExceeded _ mtu, st) =>
                let icmp_bytes := if is_ipv6 packet then generate_icmpv6_error packet 2 0
                  else generate_fragmentation_needed packet mtu
                let st := increment_icmp f st ingress
                match parse icmp_bytes with
                | .ok icmp_packet =>
                  let res := process_packet_multi_loop hashFn stream f tables fuel ingress
                    icmp_packet (opposite_destination dest) st
                  (res.1, res.2.1, res.2.2 + 1)
                | .error _ => (packet, st, 1)
              | (.packetLost, st) => (packet, increment_lost f st ingress, 1)
              | (.ok, st) =>
                let res := process_packet_multi_loop hashFn stream f tables fuel next_hop2
                  packet dest (increment_forwarded f st ingress)
                (res.1, res.2.1, res.2.2 + 1)

/-- `process_packet_multi` (hop budget 100). -/
def process_packet_multi (hashFn : PacketMeta → Nat → Nat) (stream : Nat → ℚ)
    (f : Fabric) (tables : RouterId → Option MultiPathTable) (ingress : RouterId)
    (packet : PacketMeta) (dest : Destination) (st : ProcState) :
    PacketMeta × ProcState × Nat :=
  process_packet_multi_loop hashFn stream f tables 100 ingress packet dest st

/-- The counter bump of `simulate_link`. -/
def bumpCounter (st : ProcState) (idx : Nat) : ProcState :=
  { st with counters := fun j => if j = idx then st.counters j + 1 else st.counters j }

/-- Cursor advance by the number of RNG draws consumed. -/
def advanceCursor (st : ProcState) (n : Nat) : ProcState :=
  { st with cursor := st.cursor + n }

/-- A trivial stand-in for `DefaultHasher` used on concrete runs. -/
def hf0 : PacketMeta → Nat → Nat := fun _ _ => 0

/-- An entropy stream all of whose draws are 0. -/
def str0 : Nat → ℚ := fun _ => 0

/-- A single isolated router. -/
def fab1 : Fabric := { routers := ["Rx0y0"], links := [] }

/-- `c5pkt` after one TTL decrement. -/
def c2pkt2 : PacketMeta :=
  { c5pkt with ttl := 63, raw := update_ipv4_checksum (c5data.set 8 63) }

def recvSum (f : Fabric) (st : ProcState) : Nat :=
  (f.routers.map (fun r => (st.stats r).packets_received)).sum

/-! ## File-mode pipeline (src/lib.rs `run`, src/tun/mod.rs `start`,
packet-file branch) -/

/-- The packet-file branch of `tun::start` for a configuration whose
`packet_inject_tun` is set ("tun_a" or "tun_b", given here as
`inject_tun_a`): compute the routing tables, then for each input frame
parse it (skipping failures, the hex layer being an injection), run the
configured processor, and append the processed frame's raw bytes to
the output.  Router stats, link counters and the global RNG position
persist across frames.  `seed` is the configuration's
`simulation.seed`: as in the source, where `init_rng` is never called
and `GLOBAL_RNG` always starts from entropy (the `stream` parameter),
it is unused. -/
def packet_file_outputs (hashFn : PacketMeta → Nat → Nat) (stream : Nat → ℚ)
    (f : Fabric) (ingress_a ingress_b : RouterId) (enable_multipath : Bool)
    (inject_tun_a : Bool) (seed : Option Nat) (lines : List (List Nat)) :
    List (List Nat) :=
  (lines.foldl (fun (acc : List (List Nat) × ProcState) bytes =>
    match parse bytes with
    | .error _ => acc
    | .ok packet =>
      let ingress := if inject_tun_a then ingress_a else ingress_b
      let destination := if inject_tun_a then Destination.TunB else Destination.TunA
      let res :=
        if enable_multipath then
          process_packet_multi hashFn stream f
            (compute_multi_path_routing f ingress_a ingress_b) ingress packet
            destination acc.2
        else
          process_packet hashFn stream f (compute_routing f ingress_a ingress_b)
            ingress packet destination acc.2
      (acc.1 ++ [res.1.raw], res.2.1)) ([], pstate0)).1

/-- A two-hop chain with 50% loss on each link. -/
def lc50 : LinkConfig :=
  { mtu := none, delay_ms := 1, jitter_ms := 0, loss_percent := 50, load_balance := false }

def c9fab : Fabric :=
  { routers := ["Rx0y0", "Rx0y1", "Rx0y2"],
    links := [ { id := { a := "Rx0y0", b := "Rx0y1" }, cfg := lc50 },
               { id := { a := "Rx0y1", b := "Rx0y2" }, cfg := lc50 } ] }

/-- An entropy stream all of whose draws are 99 (no loss ever). -/
def str99 : Nat → ℚ := fun _ => 99

/-! ## List helpers -/

/-- `getD`-level description of `List.set`: reading the written index. -/
theorem getD_set_self {l : List Nat} {x d : Nat} (i : Nat) (h : i < l.length) :
    (l.set i x).getD i d = x := by
  simp [List.getD_eq_getElem?_getD, List.getElem?_set_self, h]

/-- `getD`-level description of `List.set`: reading another index. -/
theorem getD_set_other {l : List Nat} {x d : Nat} (i j : Nat) (h : i ≠ j) :
    (l.set i x).getD j d = l.getD j d := by
  simp [List.getD_eq_getElem?_getD, List.getElem?_set_ne h]

theorem foldCarry_lt (s : Nat) : foldCarry s < 65536 := by
  induction s using foldCarry.induct with
  | case1 s h => rw [foldCarry]; simp [h]
  | case2 s h ih => rw [foldCarry]; simp only [if_neg h]; exact ih

theorem foldCarry_mod (s : Nat) : foldCarry s % 65535 = s % 65535 := by
  induction s using foldCarry.induct with
  | case1 s h => rw [foldCarry]; simp [h]
  | case2 s h ih =>
    rw [foldCarry]; simp only [if_neg h]
    rw [ih]
    omega

theorem foldCarry_eq_zero_iff (s : Nat) : foldCarry s = 0 ↔ s = 0 := by
  induction s using foldCarry.induct with
  | case1 s h => rw [foldCarry]; simp [h]
  | case2 s h ih =>
    rw [foldCarry]; simp only [if_neg h]
    rw [ih]
    constructor
    · intro hz
      omega
    · intro hz; omega

theorem foldCarry_le (s : Nat) : foldCarry s ≤ s := by
  induction s using foldCarry.induct with
  | case1 s h => rw [foldCarry]; simp [h]
  | case2 s h ih =>
    rw [foldCarry]; simp only [if_neg h]
    refine le_trans ih ?_
    push_neg at h
    have h1 : s % 65536 < 65536 := Nat.mod_lt _ (by norm_num)
    have h2 : 1 ≤ s / 65536 := Nat.one_le_div_iff (by norm_num) |>.mpr h
    nlinarith [Nat.div_add_mod s 65536]

/-- A positive multiple of `0xFFFF` folds to exactly `0xFFFF`. -/
theorem foldCarry_of_pos_multiple (s : Nat) (hs : s ≠ 0) (hm : s % 65535 = 0) :
    foldCarry s = 65535 := by
  have h1 := foldCarry_lt s
  have h2 := foldCarry_mod s
  have h3 := (foldCarry_eq_zero_iff s).not.mpr hs
  omega

theorem sum16_step (skipTen : Bool) (data : List Nat) (i : Nat) (h : i < data.length) :
    sum16 skipTen data i =
      (if skipTen ∧ i = 10 then 0
       else if i + 1 < data.length then data.getD i 0 * 256 + data.getD (i + 1) 0
       else data.getD i 0 * 256)
      + sum16 skipTen data (i + 2) := by
  rw [sum16]; simp [h]

theorem sum16_stop (skipTen : Bool) (data : List Nat) (i : Nat) (h : ¬ i < data.length) :
    sum16 skipTen data i = 0 := by
  rw [sum16]; simp [h]

/-- Past the checksum field, the skipping and non-skipping sums agree
(stated with an explicit bound on the remaining length to recurse on). -/
theorem sum16_true_eq_false_aux (data : List Nat) :
    ∀ (n i : Nat), data.length - i ≤ n → 10 < i →
      sum16 true data i = sum16 false data i := by
  intro n
  induction n with
  | zero =>
    intro i hn h
    have hlt : ¬ i < data.length := by omega
    rw [sum16_stop _ _ _ hlt, sum16_stop _ _ _ hlt]
  | succ k ih =>
    intro i hn h
    by_cases hlt : i < data.length
    · rw [sum16_step true data i hlt, sum16_step false data i hlt]
      have : ¬ (True ∧ i = 10) := by omega
      simp only [this, if_false, true_and, false_and]
      rw [ih (i + 2) (by omega) (by omega)]
      simp
    · rw [sum16_stop _ _ _ hlt, sum16_stop _ _ _ hlt]

/-- Past the checksum field, the skipping and non-skipping sums agree. -/
theorem sum16_true_eq_false_of_gt (data : List Nat) (i : Nat) (h : 10 < i) :
    sum16 true data i = sum16 false data i :=
  sum16_true_eq_false_aux data data.length i (by omega) h

/-- The skipping sum never reads bytes 10 or 11 (from an even start);
auxiliary form with an explicit recursion bound. -/
theorem sum16_true_set_aux {data : List Nat} {x : Nat} (j : Nat)
    (hj : j = 10 ∨ j = 11) :
    ∀ (n i : Nat), (data.set j x).length - i ≤ n → i % 2 = 0 →
      sum16 true (data.set j x) i = sum16 true data i := by
  intro n
  induction n with
  | zero =>
    intro i hn hi
    have hlen : (data.set j x).length = data.length := by simp
    have hlt : ¬ i < (data.set j x).length := by omega
    have hlt' : ¬ i < data.length := by rw [← hlen]; exact hlt
    rw [sum16_stop _ _ _ hlt, sum16_stop _ _ _ hlt']
  | succ k ih =>
    intro i hn hi
    have hlen : (data.set j x).length = data.length := by simp
    by_cases hlt : i < (data.set j x).length
    · have hlt' : i < data.length := by rw [← hlen]; exact hlt
      rw [sum16_step true _ i hlt, sum16_step true data i hlt']
      rw [ih (i + 2) (by omega) (by omega)]
      congr 1
      by_cases h10 : i = 10
      · simp [h10]
      · have hji : j ≠ i := by omega
        have hji1 : j ≠ i + 1 := by omega
        rw [getD_set_other j i hji, getD_set_other j (i + 1) hji1]
        simp [hlen]
    · have hlt' : ¬ i < data.length := by rw [← hlen]; exact hlt
      rw [sum16_stop _ _ _ hlt, sum16_stop _ _ _ hlt']

/-- The skipping sum never reads bytes 10 or 11 (from an even start). -/
theorem sum16_true_set {data : List Nat} {x : Nat} (i j : Nat)
    (hj : j = 10 ∨ j = 11) (hi : i % 2 = 0) :
    sum16 true (data.set j x) i = sum16 true data i :=
  sum16_true_set_aux j hj (data.set j x).length i (by omega) hi

/-- `sum16 false` splits off the 16-bit word at offset 10 (even start
at or below 10, buffer long enough to contain bytes 10 and 11). -/
theorem sum16_false_split_aux (data : List Nat) (hlen : 11 < data.length) :
    ∀ (n i : Nat), data.length - i ≤ n → i % 2 = 0 → i ≤ 10 →
      sum16 false data i =
        sum16 true data i + (data.getD 10 0 * 256 + data.getD 11 0) := by
  intro n
  induction n with
  | zero =>
    intro i hn hi hle
    exfalso
    omega
  | succ k ih =>
    intro i hn hi hle
    have hlt : i < data.length := by omega
    by_cases h10 : i = 10
    · subst h10
      rw [sum16_step false data 10 hlt, sum16_step true data 10 hlt]
      rw [sum16_true_eq_false_of_gt data 12 (by omega)]
      simp only [false_and, if_false, true_and, if_true]
      have : 10 + 1 < data.length := by omega
      simp [this]
      ring
    · have hle' : i + 2 ≤ 10 := by omega
      rw [sum16_step false data i hlt, sum16_step true data i hlt]
      rw [ih (i + 2) (by omega) (by omega) hle']
      have hcond : ¬ (True ∧ i = 10) := by simp [h10]
      simp only [hcond, if_false, Bool.false_eq_true, false_and]
      ring

/-- `sum16 false` splits off the 16-bit word at offset 10 (even start
at or below 10, buffer long enough to contain bytes 10 and 11). -/
theorem sum16_false_split (data : List Nat) (i : Nat)
    (hi : i % 2 = 0) (hle : i ≤ 10) (hlen : 11 < data.length) :
    sum16 false data i = sum16 true data i + (data.getD 10 0 * 256 + data.getD 11 0) :=
  sum16_false_split_aux data hlen data.length i (by omega) hi hle

theorem calculate_ipv4_checksum_of_le {header : List Nat} (h : 20 ≤ header.length) :
    calculate_ipv4_checksum header =
      65535 - foldCarry (sum16 true
        (header.take (min (header.getD 0 0 % 16 * 4) header.length)) 0) := by
  rw [calculate_ipv4_checksum, if_neg (by omega)]

theorem ipv4_checksum_with_field_of_le {header : List Nat} (h : 20 ≤ header.length) :
    ipv4_checksum_with_field header =
      65535 - foldCarry (sum16 false
        (header.take (min (header.getD 0 0 % 16 * 4) header.length)) 0) := by
  rw [ipv4_checksum_with_field, if_neg (by omega)]

theorem update_ipv4_checksum_of_le {packet : List Nat} (h : 20 ≤ packet.length) :
    update_ipv4_checksum packet =
      (((packet.set 10 0).set 11 0).set 10
        (calculate_ipv4_checksum ((packet.set 10 0).set 11 0) / 256 % 256)).set 11
        (calculate_ipv4_checksum ((packet.set 10 0).set 11 0) % 256) := by
  rw [update_ipv4_checksum, if_neg (by omega)]

theorem update_ipv4_checksum_verifies (l : List Nat)
    (hlen : 20 ≤ l.length) (hihl : 20 ≤ l.getD 0 0 % 16 * 4) :
    ipv4_checksum_with_field (update_ipv4_checksum l) = 0 := by
  have hm20 : 20 ≤ min (l.getD 0 0 % 16 * 4) l.length := le_min hihl hlen
  have hp0byte0 : ((l.set 10 0).set 11 0).getD 0 0 = l.getD 0 0 := by
    rw [getD_set_other 11 0 (by omega), getD_set_other 10 0 (by omega)]
  have hp0len : ((l.set 10 0).set 11 0).length = l.length := by simp
  -- the recomputed checksum value c, in terms of the skipping sum S
  have hc : calculate_ipv4_checksum ((l.set 10 0).set 11 0) =
      65535 - foldCarry (sum16 true (l.take (min (l.getD 0 0 % 16 * 4) l.length)) 0) := by
    rw [calculate_ipv4_checksum_of_le (by omega), hp0byte0, hp0len]
    rw [List.set_take, List.set_take]
    rw [sum16_true_set 0 11 (Or.inr rfl) rfl, sum16_true_set 0 10 (Or.inl rfl) rfl]
  -- abbreviations
  obtain ⟨S, hS⟩ : ∃ S, sum16 true (l.take (min (l.getD 0 0 % 16 * 4) l.length)) 0 = S :=
    ⟨_, rfl⟩
  obtain ⟨c, hcv⟩ : ∃ c, calculate_ipv4_checksum ((l.set 10 0).set 11 0) = c := ⟨_, rfl⟩
  have hcS : c = 65535 - foldCarry S := by rw [← hcv, hc, hS]
  have hcle : c ≤ 65535 := by
    have := foldCarry_lt S
    omega
  -- the final buffer r
  rw [update_ipv4_checksum_of_le (by omega), hcv]
  have hrbyte0 : (((((l.set 10 0).set 11 0).set 10 (c / 256 % 256)).set 11 (c % 256))).getD 0 0
      = l.getD 0 0 := by
    rw [getD_set_other 11 0 (by omega), getD_set_other 10 0 (by omega), hp0byte0]
  have hrlen : (((((l.set 10 0).set 11 0).set 10 (c / 256 % 256)).set 11 (c % 256))).length
      = l.length := by simp
  rw [ipv4_checksum_with_field_of_le (by rw [hrlen]; omega), hrbyte0, hrlen]
  -- push the take inside the four writes
  rw [List.set_take, List.set_take, List.set_take, List.set_take]
  -- the 16-bit word now sitting in the checksum field is exactly c
  have htakelen : (l.take (min (l.getD 0 0 % 16 * 4) l.length)).length
      = min (l.getD 0 0 % 16 * 4) l.length := by
    simp
  have hword10 : ((((((l.take (min (l.getD 0 0 % 16 * 4) l.length)).set 10 0).set 11 0).set 10
      (c / 256 % 256)).set 11 (c % 256))).getD 10 0 = c / 256 % 256 := by
    rw [getD_set_other 11 10 (by omega)]
    rw [getD_set_self 10 (by simp only [List.length_set, htakelen]; omega)]
  have hword11 : ((((((l.take (min (l.getD 0 0 % 16 * 4) l.length)).set 10 0).set 11 0).set 10
      (c / 256 % 256)).set 11 (c % 256))).getD 11 0 = c % 256 := by
    rw [getD_set_self 11 (by simp only [List.length_set, htakelen]; omega)]
  have hsum_true : sum16 true (((((l.take (min (l.getD 0 0 % 16 * 4) l.length)).set 10 0).set 11
      0).set 10 (c / 256 % 256)).set 11 (c % 256)) 0 = S := by
    rw [sum16_true_set 0 11 (Or.inr rfl) rfl, sum16_true_set 0 10 (Or.inl rfl) rfl,
        sum16_true_set 0 11 (Or.inr rfl) rfl, sum16_true_set 0 10 (Or.inl rfl) rfl, hS]
  have hsplit := sum16_false_split (((((l.take (min (l.getD 0 0 % 16 * 4) l.length)).set 10
      0).set 11 0).set 10 (c / 256 % 256)).set 11 (c % 256)) 0 rfl (by omega)
      (by simp only [List.length_set, htakelen]; omega)
  rw [hsum_true, hword10, hword11] at hsplit
  rw [hsplit]
  have hdivle : c / 256 ≤ 255 := by omega
  have hdivmod : c / 256 % 256 = c / 256 := Nat.mod_eq_of_lt (by omega)
  have hwordc : c / 256 % 256 * 256 + c % 256 = c := by
    rw [hdivmod]; omega
  rw [hwordc]
  have hFle := foldCarry_le S
  have hFlt := foldCarry_lt S
  have hFmod := foldCarry_mod S
  have hfold : foldCarry (S + c) = 65535 := by
    apply foldCarry_of_pos_multiple
    · omega
    · omega
  rw [hfold]

theorem parse_ok_raw {data : List Nat} {P : PacketMeta} (h : parse data = .ok P) :
    P.raw = data ∧ 20 ≤ data.length := by
  simp only [parse] at h
  split_ifs at h with h1 h2 h3 h4 h5 h6 h7
  all_goals first
    | exact Except.noConfusion h
    | (injection h with h
       exact ⟨by rw [← h], by omega⟩)

theorem parse_ok_v4 {data : List Nat} {P : PacketMeta} (h : parse data = .ok P)
    (hv : ∃ o, P.src_ip = IpAddr.V4 o) :
    data.getD 0 0 / 16 = 4 ∧ 20 ≤ data.getD 0 0 % 16 * 4 ∧ P.ttl = data.getD 8 0 := by
  simp only [parse] at h
  split_ifs at h with h1 h2 h3 h4 h5 h6 h7
  all_goals first
    | exact Except.noConfusion h
    | (injection h with h
       obtain ⟨o, ho⟩ := hv
       rw [← h] at ho
       exact IpAddr.noConfusion ho)
    | (injection h with h
       refine ⟨h2, ?_, ?_⟩
       · omega
       · rw [← h])

theorem parse_ok_v6 {data : List Nat} {P : PacketMeta} (h : parse data = .ok P)
    (hv : ∃ o, P.src_ip = IpAddr.V6 o) :
    40 ≤ data.length ∧ P.ttl = data.getD 7 0 := by
  simp only [parse] at h
  split_ifs at h with h1 h2 h3 h4 h5 h6 h7
  all_goals first
    | exact Except.noConfusion h
    | (injection h with h
       obtain ⟨o, ho⟩ := hv
       rw [← h] at ho
       exact IpAddr.noConfusion ho)
    | (injection h with h
       refine ⟨?_, ?_⟩
       · omega
       · rw [← h])

theorem update_ipv4_checksum_getD_other {l : List Nat} (k : Nat)
    (hk : k ≠ 10 ∧ k ≠ 11) :
    (update_ipv4_checksum l).getD k 0 = l.getD k 0 := by
  by_cases h : l.length < 20
  · rw [update_ipv4_checksum, if_pos h]
  · rw [update_ipv4_checksum_of_le (by omega)]
    rw [getD_set_other 11 k (by omega), getD_set_other 10 k (by omega),
        getD_set_other 11 k (by omega), getD_set_other 10 k (by omega)]

/-- C5: for every `PacketMeta` obtained from a successful parse:
if its `ttl` is 0, `decrement_ttl` fails with `TtlZero`; otherwise it
returns `Ok`, decreases both the logical `ttl` field and the TTL byte
in the raw buffer (offset 8 for IPv4, offset 7 for IPv6) by exactly 1,
and for IPv4 rewrites bytes 10..12 so that the one's-complement
checksum computed over the post-state header with the checksum field
included folds to 0. -/
theorem C5_decrement_ttl (data : List Nat) (P : PacketMeta)
    (hp : parse data = .ok P) :
    (P.ttl = 0 → decrement_ttl P = .error "TTL already zero") ∧
    (0 < P.ttl → ∃ P', decrement_ttl P = .ok P' ∧
      P'.ttl + 1 = P.ttl ∧
      (∀ o, P.src_ip = IpAddr.V4 o →
        P'.raw.getD 8 0 + 1 = P.raw.getD 8 0 ∧
        ipv4_checksum_with_field P'.raw = 0) ∧
      (∀ o, P.src_ip = IpAddr.V6 o →
        P'.raw.getD 7 0 + 1 = P.raw.getD 7 0 ∧
        P'.raw = P.raw.set 7 (P.raw.getD 7 0 - 1))) := by
  obtain ⟨hraw, hlen⟩ := parse_ok_raw hp
  constructor
  · intro h0
    rw [decrement_ttl, if_pos h0]
  · intro hpos
    cases hsrc : P.src_ip with
    | V4 o =>
      obtain ⟨hver, hihl, httl⟩ := parse_ok_v4 hp ⟨o, hsrc⟩
      have h8 : 8 < P.raw.length := by rw [hraw]; omega
      refine ⟨{ P with ttl := P.ttl - 1, raw := update_ipv4_checksum (P.raw.set 8 (P.raw.getD 8 0 - 1)) }, ?_, ?_, ?_, ?_⟩
      · simp only [decrement_ttl, if_neg (by omega : ¬ P.ttl = 0), hsrc, if_pos h8]
      · show P.ttl - 1 + 1 = P.ttl
        omega
      · intro o' _
        constructor
        · show (update_ipv4_checksum (P.raw.set 8 (P.raw.getD 8 0 - 1))).getD 8 0 + 1
            = P.raw.getD 8 0
          rw [update_ipv4_checksum_getD_other 8 (by omega)]
          rw [getD_set_self 8 h8]
          have : P.raw.getD 8 0 = P.ttl := by rw [hraw, httl]
          omega
        · show ipv4_checksum_with_field
            (update_ipv4_checksum (P.raw.set 8 (P.raw.getD 8 0 - 1))) = 0
          apply update_ipv4_checksum_verifies
          · simp only [List.length_set]
            rw [hraw]; omega
          · rw [getD_set_other 8 0 (by omega)]
            have : P.raw.getD 0 0 = data.getD 0 0 := by rw [hraw]
            omega
      · intro o' hv6
        exact IpAddr.noConfusion hv6
    | V6 o =>
      obtain ⟨hlen40, httl⟩ := parse_ok_v6 hp ⟨o, hsrc⟩
      have h7 : 7 < P.raw.length := by rw [hraw]; omega
      refine ⟨{ P with ttl := P.ttl - 1, raw := P.raw.set 7 (P.raw.getD 7 0 - 1) }, ?_, ?_, ?_, ?_⟩
      · simp only [decrement_ttl, if_neg (by omega : ¬ P.ttl = 0), hsrc, if_pos h7]
      · show P.ttl - 1 + 1 = P.ttl
        omega
      · intro o' hv4
        exact IpAddr.noConfusion hv4
      · intro o' _
        constructor
        · show (P.raw.set 7 (P.raw.getD 7 0 - 1)).getD 7 0 + 1 = P.raw.getD 7 0
          rw [getD_set_self 7 h7]
          have : P.raw.getD 7 0 = P.ttl := by rw [hraw, httl]
          omega
        · rfl

/-- Witness for `C5_decrement_ttl` at the concrete packet `c5pkt`. -/
theorem C5_decrement_ttl_witness :
    parse c5data = .ok c5pkt ∧
    ((c5pkt.ttl = 0 → decrement_ttl c5pkt = .error "TTL already zero") ∧
     (0 < c5pkt.ttl → ∃ P', decrement_ttl c5pkt = .ok P' ∧
       P'.ttl + 1 = c5pkt.ttl ∧
       (∀ o, c5pkt.src_ip = IpAddr.V4 o →
         P'.raw.getD 8 0 + 1 = c5pkt.raw.getD 8 0 ∧
         ipv4_checksum_with_field P'.raw = 0) ∧
       (∀ o, c5pkt.src_ip = IpAddr.V6 o →
         P'.raw.getD 7 0 + 1 = c5pkt.raw.getD 7 0 ∧
         P'.raw = c5pkt.raw.set 7 (c5pkt.raw.getD 7 0 - 1)))) :=
  ⟨rfl, C5_decrement_ttl c5data c5pkt rfl⟩

/-- C10: `decrement_ttl` errors exactly when the logical `ttl` field is
0, independently of the raw buffer; when the raw buffer is too short to
contain the TTL byte (length at most 8 for IPv4, at most 7 for IPv6)
and `ttl` is at least 1, it still returns `Ok`, decrements only the
logical `ttl` field, and leaves the raw bytes unchanged. -/
theorem C10_decrement_ttl_short_raw (p : PacketMeta) :
    ((∃ e, decrement_ttl p = .error e) ↔ p.ttl = 0) ∧
    (0 < p.ttl →
      ((∀ o, p.src_ip = IpAddr.V4 o → p.raw.length ≤ 8 →
        decrement_ttl p = .ok { p with ttl := p.ttl - 1 }) ∧
       (∀ o, p.src_ip = IpAddr.V6 o → p.raw.length ≤ 7 →
        decrement_ttl p = .ok { p with ttl := p.ttl - 1 }))) := by
  constructor
  · constructor
    · intro ⟨e, he⟩
      by_contra h0
      rw [decrement_ttl, if_neg h0] at he
      cases hsrc : p.src_ip with
      | V4 o =>
        rw [hsrc] at he
        simp only [] at he
        split_ifs at he
      | V6 o =>
        rw [hsrc] at he
        simp only [] at he
        split_ifs at he
    · intro h0
      exact ⟨"TTL already zero", by rw [decrement_ttl, if_pos h0]⟩
  · intro hpos
    constructor
    · intro o hsrc hshort
      rw [decrement_ttl, if_neg (by omega)]
      rw [hsrc]
      simp only []
      rw [if_neg (by omega)]
    · intro o hsrc hshort
      rw [decrement_ttl, if_neg (by omega)]
      rw [hsrc]
      simp only []
      rw [if_neg (by omega)]

/-- Witness for `C10_decrement_ttl_short_raw`: an IPv4 packet with an
empty raw buffer and ttl 5. -/
theorem C10_decrement_ttl_short_raw_witness :
    ((∃ e, decrement_ttl c10pkt = .error e) ↔ c10pkt.ttl = 0) ∧
    (0 < c10pkt.ttl →
      ((∀ o, c10pkt.src_ip = IpAddr.V4 o → c10pkt.raw.length ≤ 8 →
        decrement_ttl c10pkt = .ok { c10pkt with ttl := c10pkt.ttl - 1 }) ∧
       (∀ o, c10pkt.src_ip = IpAddr.V6 o → c10pkt.raw.length ≤ 7 →
        decrement_ttl c10pkt = .ok { c10pkt with ttl := c10pkt.ttl - 1 }))) :=
  C10_decrement_ttl_short_raw c10pkt

theorem take_min (l : List Nat) (a : Nat) : l.take (min a l.length) = l.take a := by
  rw [List.take_eq_take]
  omega

theorem update_ipv4_checksum_length (l : List Nat) :
    (update_ipv4_checksum l).length = l.length := by
  by_cases h : l.length < 20
  · rw [update_ipv4_checksum, if_pos h]
  · rw [update_ipv4_checksum_of_le (by omega)]
    simp

/-- The common patch-in-place skeleton of the IPv4 ICMP builders:
writing the total length into a 20-byte front, recomputing the IPv4
checksum over the front, and writing the ICMP checksum, never touches
the tail. -/
theorem patch_skeleton (front tail : List Nat) (h20 : front.length = 20) (x2 x3 y z : Nat) :
    ((update_ipv4_checksum ((((front ++ tail).set 2 x2).set 3 x3).take 20)
      ++ (((front ++ tail).set 2 x2).set 3 x3).drop 20).set 22 y).set 23 z
    = ((update_ipv4_checksum ((front.set 2 x2).set 3 x3) ++ tail).set 22 y).set 23 z := by
  have e1 : (front ++ tail).set 2 x2 = front.set 2 x2 ++ tail :=
    List.set_append_left 2 x2 (by omega)
  have e2 : (front.set 2 x2 ++ tail).set 3 x3 = (front.set 2 x2).set 3 x3 ++ tail :=
    List.set_append_left 3 x3 (by simp [h20])
  have e3 : ((front.set 2 x2).set 3 x3 ++ tail).take 20 = (front.set 2 x2).set 3 x3 :=
    List.take_left' (by simp [h20])
  have e4 : ((front.set 2 x2).set 3 x3 ++ tail).drop 20 = tail :=
    List.drop_left' (by simp [h20])
  rw [e1, e2, e3, e4]

/-- Structural decomposition of `generate_fragmentation_needed` for an
IPv4 triggering packet: a 20-byte IPv4 header, then type 3, code 4, a
2-byte checksum, then immediately the 2-byte MTU, then the copied
original bytes. -/
theorem gfn_decomp (P : PacketMeta) (m : Nat) (od os : List Nat)
    (hds : P.dst_ip = IpAddr.V4 od) (hss : P.src_ip = IpAddr.V4 os)
    (hod : od.length = 4) (hos : os.length = 4) :
    ∃ hdr y z, hdr.length = 20 ∧
      generate_fragmentation_needed P m =
        ((hdr ++ ([3, 4, 0, 0] ++ ([m % 65536 / 256, m % 65536 % 256] ++ P.raw.take 28))).set
          22 y).set 23 z := by
  simp only [generate_fragmentation_needed, hds, hss]
  rw [take_min]
  have hfl : ([69, 0, 0, 0, 0, 0, 0, 0, 64, 1, 0, 0] ++ od ++ os).length = 20 := by
    simp [hod, hos]
  rw [show ([69, 0, 0, 0, 0, 0, 0, 0, 64, 1, 0, 0] ++ od ++ os ++ [3, 4, 0, 0] ++
      [m % 65536 / 256, m % 65536 % 256] ++ P.raw.take 28) =
    (([69, 0, 0, 0, 0, 0, 0, 0, 64, 1, 0, 0] ++ od ++ os) ++ ([3, 4, 0, 0] ++
      ([m % 65536 / 256, m % 65536 % 256] ++ P.raw.take 28))) from by
    simp [List.append_assoc]]
  refine ⟨_, _, _, ?_, patch_skeleton _ _ hfl _ _ _ _⟩
  rw [update_ipv4_checksum_length]
  simp [hod, hos]

/-- Structural decomposition of `generate_icmp_error`: a 20-byte IPv4
header, then type, code, 2-byte checksum, a 4-byte zero rest-of-header,
then the copied original bytes. -/
theorem gicmp_decomp (P : PacketMeta) (t k o1 o2 o3 o4 s1 s2 s3 s4 : Nat)
    (hds : P.dst_ip = IpAddr.V4 [o1, o2, o3, o4])
    (hss : P.src_ip = IpAddr.V4 [s1, s2, s3, s4]) :
    ∃ x2 x3 y z,
      x2 * 256 + x3 = 28 + min 28 P.raw.length ∧
      generate_icmp_error P t k =
        ((update_ipv4_checksum
            (([69, 0, 0, 0, 0, 0, 0, 0, 64, 1, 0, 0, o1, o2, o3, o4, s1, s2, s3, s4].set 2
              x2).set 3 x3)
          ++ ([t, k, 0, 0] ++ ([0, 0, 0, 0] ++ P.raw.take 28))).set 22 y).set 23 z := by
  simp only [generate_icmp_error, hds, hss]
  rw [take_min]
  have hfl : ([69, 0, 0, 0, 0, 0, 0, 0, 64, 1, 0, 0] ++ [o1, o2, o3, o4] ++
      [s1, s2, s3, s4]).length = 20 := by simp
  rw [show ([69, 0, 0, 0, 0, 0, 0, 0, 64, 1, 0, 0] ++ [o1, o2, o3, o4] ++ [s1, s2, s3, s4] ++
      [t, k, 0, 0] ++ [0, 0, 0, 0] ++ P.raw.take 28) =
    (([69, 0, 0, 0, 0, 0, 0, 0, 64, 1, 0, 0] ++ [o1, o2, o3, o4] ++ [s1, s2, s3, s4]) ++
      ([t, k, 0, 0] ++ ([0, 0, 0, 0] ++ P.raw.take 28))) from by
    simp [List.append_assoc]]
  have hplen : (([69, 0, 0, 0, 0, 0, 0, 0, 64, 1, 0, 0] ++ [o1, o2, o3, o4] ++
      [s1, s2, s3, s4]) ++ ([t, k, 0, 0] ++ ([0, 0, 0, 0] ++ P.raw.take 28))).length
      = 28 + min 28 P.raw.length := by
    simp
    omega
  rw [hplen]
  have harith : (28 + min 28 P.raw.length) % 65536 / 256 % 256 * 256 +
      (28 + min 28 P.raw.length) % 65536 % 256 = 28 + min 28 P.raw.length := by
    have hm : min 28 P.raw.length ≤ 28 := by omega
    omega
  have hlit : ([69, 0, 0, 0, 0, 0, 0, 0, 64, 1, 0, 0] ++ [o1, o2, o3, o4] ++ [s1, s2, s3, s4])
      = [69, 0, 0, 0, 0, 0, 0, 0, 64, 1, 0, 0, o1, o2, o3, o4, s1, s2, s3, s4] := by
    simp
  exact ⟨_, _, _, _, harith, by rw [← hlit]; exact patch_skeleton _ _ hfl _ _ _ _⟩

/-- Structural decomposition of `generate_fragmentation_needed` with an
explicit literal front, carrying the total-length equation (used for
the parse round-trip). -/
theorem gfn_decomp2 (P : PacketMeta) (m o1 o2 o3 o4 s1 s2 s3 s4 : Nat)
    (hds : P.dst_ip = IpAddr.V4 [o1, o2, o3, o4])
    (hss : P.src_ip = IpAddr.V4 [s1, s2, s3, s4]) :
    ∃ x2 x3 y z,
      x2 * 256 + x3 = 26 + min 28 P.raw.length ∧
      generate_fragmentation_needed P m =
        ((update_ipv4_checksum
            (([69, 0, 0, 0, 0, 0, 0, 0, 64, 1, 0, 0, o1, o2, o3, o4, s1, s2, s3, s4].set 2
              x2).set 3 x3)
          ++ ([3, 4, 0, 0] ++ ([m % 65536 / 256, m % 65536 % 256] ++ P.raw.take 28))).set
          22 y).set 23 z := by
  simp only [generate_fragmentation_needed, hds, hss]
  rw [take_min]
  have hfl : ([69, 0, 0, 0, 0, 0, 0, 0, 64, 1, 0, 0] ++ [o1, o2, o3, o4] ++
      [s1, s2, s3, s4]).length = 20 := by simp
  rw [show ([69, 0, 0, 0, 0, 0, 0, 0, 64, 1, 0, 0] ++ [o1, o2, o3, o4] ++ [s1, s2, s3, s4] ++
      [3, 4, 0, 0] ++ [m % 65536 / 256, m % 65536 % 256] ++ P.raw.take 28) =
    (([69, 0, 0, 0, 0, 0, 0, 0, 64, 1, 0, 0] ++ [o1, o2, o3, o4] ++ [s1, s2, s3, s4]) ++
      ([3, 4, 0, 0] ++ ([m % 65536 / 256, m % 65536 % 256] ++ P.raw.take 28))) from by
    simp [List.append_assoc]]
  have hplen : (([69, 0, 0, 0, 0, 0, 0, 0, 64, 1, 0, 0] ++ [o1, o2, o3, o4] ++
      [s1, s2, s3, s4]) ++ ([3, 4, 0, 0] ++ ([m % 65536 / 256, m % 65536 % 256] ++
      P.raw.take 28))).length = 26 + min 28 P.raw.length := by
    simp
    omega
  rw [hplen]
  have harith : (26 + min 28 P.raw.length) % 65536 / 256 % 256 * 256 +
      (26 + min 28 P.raw.length) % 65536 % 256 = 26 + min 28 P.raw.length := by
    have hm : min 28 P.raw.length ≤ 28 := by omega
    omega
  have hlit : ([69, 0, 0, 0, 0, 0, 0, 0, 64, 1, 0, 0] ++ [o1, o2, o3, o4] ++ [s1, s2, s3, s4])
      = [69, 0, 0, 0, 0, 0, 0, 0, 64, 1, 0, 0, o1, o2, o3, o4, s1, s2, s3, s4] := by
    simp
  exact ⟨_, _, _, _, harith, by rw [← hlit]; exact patch_skeleton _ _ hfl _ _ _ _⟩

/-- Structural decomposition of `generate_icmpv6_error`: a 40-byte IPv6
header with src/dst swapped, then type, code, 2-byte checksum, then a
4-byte rest-of-header only for type 3, then the copied original bytes
(no MTU field anywhere). -/
theorem gie_decomp (P6 : PacketMeta) (t c : Nat) (od os : List Nat)
    (hds : P6.dst_ip = IpAddr.V6 od) (hss : P6.src_ip = IpAddr.V6 os)
    (hod : od.length = 16) (hos : os.length = 16) :
    ∃ p1 p2 y z, generate_icmpv6_error P6 t c =
      ([96, 0, 0, 0, p1, p2, 58, 64] ++ od ++ os) ++
        (([t, c, y, z] ++ (if t = 3 then [0, 0, 0, 0] else [])) ++
          P6.raw.take (if t = 3 then 1232 else 1236)) := by
  have push16 : ∀ (l X : List Nat) (A i : Nat), l.length = 16 → 16 ≤ i →
      (l ++ X).set i A = l ++ X.set (i - 16) A := by
    intro l X A i hl hi
    rw [List.set_append_right i A (by rw [hl]; omega), hl]
  simp only [generate_icmpv6_error, hds, hss]
  by_cases ht : t = 3
  · simp only [if_pos ht]
    have hil : ([t, c, 0, 0] ++ [0, 0, 0, 0]).length = 8 := by simp
    have h40' : ([96, 0, 0, 0, 0, 0, 58, 64] ++ od ++ os).length = 40 := by
      simp [hod, hos]
    rw [h40', hil]
    norm_num
    rw [take_min]
    rw [push16 od _ _ 34 hod (by norm_num), push16 od _ _ 35 hod (by norm_num),
        push16 os _ _ (34 - 16) hos (by norm_num), push16 os _ _ (35 - 16) hos (by norm_num)]
    exact ⟨_, _, rfl⟩
  · simp only [if_neg ht]
    have hil : ([t, c, 0, 0] ++ ([] : List Nat)).length = 4 := by simp
    have h40' : ([96, 0, 0, 0, 0, 0, 58, 64] ++ od ++ os).length = 40 := by
      simp [hod, hos]
    rw [h40', hil]
    norm_num
    rw [take_min]
    rw [push16 od _ _ 34 hod (by norm_num), push16 od _ _ 35 hod (by norm_num),
        push16 os _ _ (34 - 16) hos (by norm_num), push16 os _ _ (35 - 16) hos (by norm_num)]
    exact ⟨_, _, rfl⟩

/-- C3 as stated is false at a concrete input: for the repository's own
test packet and MTU 1500, the Fragmentation Needed reply does not carry
the MTU in the last two bytes of a 4-byte rest-of-header with the first
two bytes zero (byte 24 is 5, not 0), and the ICMPv6 type-2 reply has
no 4-byte rest-of-header carrying the MTU (byte 46,47 hold original
packet bytes, not 1500). -/
theorem C3_counterexample :
    ¬ (((generate_fragmentation_needed c3pkt 1500).getD 24 0 = 0 ∧
        (generate_fragmentation_needed c3pkt 1500).getD 25 0 = 0 ∧
        (generate_fragmentation_needed c3pkt 1500).getD 26 0 * 256 +
          (generate_fragmentation_needed c3pkt 1500).getD 27 0 = 1500 ∧
        (generate_fragmentation_needed c3pkt 1500).drop 28 = c3pkt.raw.take 28) ∧
       ((generate_icmpv6_error c3pkt6 2 0).getD 44 0 = 0 ∧
        (generate_icmpv6_error c3pkt6 2 0).getD 45 0 = 0 ∧
        (generate_icmpv6_error c3pkt6 2 0).getD 46 0 * 256 +
          (generate_icmpv6_error c3pkt6 2 0).getD 47 0 = 1500)) := by
  decide

/-- C3 (amended): the Fragmentation Needed builder emits a 6-byte ICMP
header — type 3, code 4, 2-byte checksum, then immediately the 2-byte
next-hop MTU at bytes 24..26 (no unused pair) — with the copied
original data starting at byte 26 of the reply; and the processors'
IPv6 Packet Too Big path calls the generic ICMPv6 builder with type 2
code 0, which emits no rest-of-header and does not carry the MTU at
all: the copied original data starts at byte 44, directly after the
checksum. -/
theorem C3_icmp_mtu_layout (P P6 : PacketMeta) (m : Nat) (od os o6d o6s : List Nat)
    (hds : P.dst_ip = IpAddr.V4 od) (hss : P.src_ip = IpAddr.V4 os)
    (hod : od.length = 4) (hos : os.length = 4)
    (h6ds : P6.dst_ip = IpAddr.V6 o6d) (h6ss : P6.src_ip = IpAddr.V6 o6s)
    (h6od : o6d.length = 16) (h6os : o6s.length = 16) :
    (generate_fragmentation_needed P m).getD 20 0 = 3 ∧
    (generate_fragmentation_needed P m).getD 21 0 = 4 ∧
    (generate_fragmentation_needed P m).getD 24 0 = m % 65536 / 256 ∧
    (generate_fragmentation_needed P m).getD 25 0 = m % 65536 % 256 ∧
    (generate_fragmentation_needed P m).drop 26 = P.raw.take 28 ∧
    (generate_fragmentation_needed P m).length = 26 + min 28 P.raw.length ∧
    (generate_icmpv6_error P6 2 0).getD 40 0 = 2 ∧
    (generate_icmpv6_error P6 2 0).getD 41 0 = 0 ∧
    (generate_icmpv6_error P6 2 0).drop 44 = P6.raw.take 1236 ∧
    (generate_icmpv6_error P6 2 0).length = 44 + min 1236 P6.raw.length := by
  obtain ⟨hdr, y, z, hlen, heq⟩ := gfn_decomp P m od os hds hss hod hos
  obtain ⟨p1, p2, y6, z6, heq6⟩ := gie_decomp P6 2 0 o6d o6s h6ds h6ss h6od h6os
  rw [if_neg (by decide), if_neg (by decide), List.append_nil] at heq6
  have h6len : ([96, 0, 0, 0, p1, p2, 58, 64] ++ o6d ++ o6s).length = 40 := by
    simp [h6od, h6os]
  refine ⟨?_, ?_, ?_, ?_, ?_, ?_, ?_, ?_, ?_, ?_⟩
  · rw [heq, getD_set_other 23 20 (by omega), getD_set_other 22 20 (by omega),
        List.getD_append_right _ _ _ _ (by omega), hlen]
    rfl
  · rw [heq, getD_set_other 23 21 (by omega), getD_set_other 22 21 (by omega),
        List.getD_append_right _ _ _ _ (by omega), hlen]
    rfl
  · rw [heq, getD_set_other 23 24 (by omega), getD_set_other 22 24 (by omega),
        List.getD_append_right _ _ _ _ (by omega), hlen]
    rfl
  · rw [heq, getD_set_other 23 25 (by omega), getD_set_other 22 25 (by omega),
        List.getD_append_right _ _ _ _ (by omega), hlen]
    rfl
  · rw [heq, List.drop_set_of_lt _ _ (by omega), List.drop_set_of_lt _ _ (by omega),
        List.drop_append_eq_append_drop, hlen,
        List.drop_eq_nil_of_le (by omega), List.nil_append]
    rfl
  · rw [heq]
    simp [List.length_set, List.length_append, hlen, List.length_take]
    omega
  · rw [heq6, List.getD_append_right _ _ _ _ (by omega), h6len]
    rfl
  · rw [heq6, List.getD_append_right _ _ _ _ (by omega), h6len]
    rfl
  · rw [heq6, List.drop_append_eq_append_drop, h6len,
        List.drop_eq_nil_of_le (by omega), List.nil_append]
    rfl
  · rw [heq6]
    simp [List.length_append, List.length_take, h6od, h6os]
    omega

/-- Witness for `C3_icmp_mtu_layout` at the concrete packets `c3pkt`,
`c3pkt6` and MTU 1500. -/
theorem C3_icmp_mtu_layout_witness :
    (generate_fragmentation_needed c3pkt 1500).getD 20 0 = 3 ∧
    (generate_fragmentation_needed c3pkt 1500).getD 21 0 = 4 ∧
    (generate_fragmentation_needed c3pkt 1500).getD 24 0 = 1500 % 65536 / 256 ∧
    (generate_fragmentation_needed c3pkt 1500).getD 25 0 = 1500 % 65536 % 256 ∧
    (generate_fragmentation_needed c3pkt 1500).drop 26 = c3pkt.raw.take 28 ∧
    (generate_fragmentation_needed c3pkt 1500).length = 26 + min 28 c3pkt.raw.length ∧
    (generate_icmpv6_error c3pkt6 2 0).getD 40 0 = 2 ∧
    (generate_icmpv6_error c3pkt6 2 0).getD 41 0 = 0 ∧
    (generate_icmpv6_error c3pkt6 2 0).drop 44 = c3pkt6.raw.take 1236 ∧
    (generate_icmpv6_error c3pkt6 2 0).length = 44 + min 1236 c3pkt6.raw.length :=
  C3_icmp_mtu_layout c3pkt c3pkt6 1500
    [192, 168, 0, 2] [192, 168, 0, 1]
    [32, 1, 13, 184, 0, 0, 0, 0, 0, 0, 0, 0, 0, 0, 0, 2]
    [32, 1, 13, 184, 0, 0, 0, 0, 0, 0, 0, 0, 0, 0, 0, 1]
    rfl rfl rfl rfl rfl rfl rfl rfl

/-- Parsing a patched IPv4 ICMP reply: the reply parses successfully,
with the router's viewpoint addresses (original dst as source, original
src as destination), protocol 1, TTL 64 and no ports. -/
theorem parse_icmp_v4 (o1 o2 o3 o4 s1 s2 s3 s4 x2 x3 y z : Nat) (T : List Nat)
    (hx : x2 * 256 + x3 = 20 + T.length) (hT : 20 + T.length < 65536)
    (hTlen : 4 ≤ T.length) :
    parse (((update_ipv4_checksum
        (([69, 0, 0, 0, 0, 0, 0, 0, 64, 1, 0, 0, o1, o2, o3, o4, s1, s2, s3, s4].set 2
          x2).set 3 x3) ++ T).set 22 y).set 23 z) =
      .ok { src_ip := IpAddr.V4 [o1, o2, o3, o4], dst_ip := IpAddr.V4 [s1, s2, s3, s4],
            src_port := 0, dst_port := 0, protocol := 1, ttl := 64,
            raw := ((update_ipv4_checksum
              (([69, 0, 0, 0, 0, 0, 0, 0, 64, 1, 0, 0, o1, o2, o3, o4, s1, s2, s3,
                s4].set 2 x2).set 3 x3) ++ T).set 22 y).set 23 z } := by
  have hH : (update_ipv4_checksum
      (([69, 0, 0, 0, 0, 0, 0, 0, 64, 1, 0, 0, o1, o2, o3, o4, s1, s2, s3, s4].set 2
        x2).set 3 x3)).length = 20 := by
    rw [update_ipv4_checksum_length]
    simp
  have hD : ((update_ipv4_checksum
      (([69, 0, 0, 0, 0, 0, 0, 0, 64, 1, 0, 0, o1, o2, o3, o4, s1, s2, s3, s4].set 2
        x2).set 3 x3) ++ T).set 22 y).set 23 z =
      update_ipv4_checksum
        (([69, 0, 0, 0, 0, 0, 0, 0, 64, 1, 0, 0, o1, o2, o3, o4, s1, s2, s3, s4].set 2
          x2).set 3 x3) ++ ((T.set 2 y).set 3 z) := by
    rw [List.set_append_right 22 y (by rw [hH]; omega), hH,
        show (22 - 20 : Nat) = 2 from rfl,
        List.set_append_right 23 z (by rw [hH]; omega), hH,
        show (23 - 20 : Nat) = 3 from rfl]
  rw [hD]
  have hlenD : (update_ipv4_checksum
      (([69, 0, 0, 0, 0, 0, 0, 0, 64, 1, 0, 0, o1, o2, o3, o4, s1, s2, s3, s4].set 2
        x2).set 3 x3) ++ ((T.set 2 y).set 3 z)).length = 20 + T.length := by
    simp only [List.length_append, hH, List.length_set]
  have hgk : ∀ kk, kk < 20 → (update_ipv4_checksum
      (([69, 0, 0, 0, 0, 0, 0, 0, 64, 1, 0, 0, o1, o2, o3, o4, s1, s2, s3, s4].set 2
        x2).set 3 x3) ++ ((T.set 2 y).set 3 z)).getD kk 0 =
      (update_ipv4_checksum
        (([69, 0, 0, 0, 0, 0, 0, 0, 64, 1, 0, 0, o1, o2, o3, o4, s1, s2, s3,
          s4].set 2 x2).set 3 x3)).getD kk 0 := by
    intro kk hkk
    rw [List.getD_append _ _ _ _ (by rw [hH]; omega)]
  have hb : ∀ kk, kk < 20 → kk ≠ 2 → kk ≠ 3 → kk ≠ 10 → kk ≠ 11 →
      (update_ipv4_checksum
        (([69, 0, 0, 0, 0, 0, 0, 0, 64, 1, 0, 0, o1, o2, o3, o4, s1, s2, s3,
          s4].set 2 x2).set 3 x3) ++ ((T.set 2 y).set 3 z)).getD kk 0 =
      [69, 0, 0, 0, 0, 0, 0, 0, 64, 1, 0, 0, o1, o2, o3, o4, s1, s2, s3, s4].getD kk 0 := by
    intro kk h1 h2 h3 h4 h5
    rw [hgk kk h1, update_ipv4_checksum_getD_other kk ⟨h4, h5⟩,
        getD_set_other 3 kk (by omega), getD_set_other 2 kk (by omega)]
  have hb2 : (update_ipv4_checksum
      (([69, 0, 0, 0, 0, 0, 0, 0, 64, 1, 0, 0, o1, o2, o3, o4, s1, s2, s3, s4].set 2
        x2).set 3 x3) ++ ((T.set 2 y).set 3 z)).getD 2 0 = x2 := by
    rw [hgk 2 (by omega), update_ipv4_checksum_getD_other 2 (by omega),
        getD_set_other 3 2 (by omega), getD_set_self 2 (by simp)]
  have hb3 : (update_ipv4_checksum
      (([69, 0, 0, 0, 0, 0, 0, 0, 64, 1, 0, 0, o1, o2, o3, o4, s1, s2, s3, s4].set 2
        x2).set 3 x3) ++ ((T.set 2 y).set 3 z)).getD 3 0 = x3 := by
    rw [hgk 3 (by omega), update_ipv4_checksum_getD_other 3 (by omega),
        getD_set_self 3 (by simp)]
  rw [parse]
  rw [if_neg (by omega)]
  rw [hb 0 (by omega) (by omega) (by omega) (by omega) (by omega)]
  rw [hb2, hb3, hb 8 (by omega) (by omega) (by omega) (by omega) (by omega),
      hb 9 (by omega) (by omega) (by omega) (by omega) (by omega),
      hb 12 (by omega) (by omega) (by omega) (by omega) (by omega),
      hb 13 (by omega) (by omega) (by omega) (by omega) (by omega),
      hb 14 (by omega) (by omega) (by omega) (by omega) (by omega),
      hb 15 (by omega) (by omega) (by omega) (by omega) (by omega),
      hb 16 (by omega) (by omega) (by omega) (by omega) (by omega),
      hb 17 (by omega) (by omega) (by omega) (by omega) (by omega),
      hb 18 (by omega) (by omega) (by omega) (by omega) (by omega),
      hb 19 (by omega) (by omega) (by omega) (by omega) (by omega)]
  rw [hlenD]
  norm_num
  intro hcontra
  exact absurd hcontra (by omega)

/-- Parsing a generated ICMPv6 reply: parses successfully with the
router's viewpoint addresses swapped, Next Header 58, Hop Limit 64. -/
theorem parse_icmp_v6 (p1 p2 t c y z : Nat) (od os E tl : List Nat)
    (hod : od.length = 16) (hos : os.length = 16) :
    parse (([96, 0, 0, 0, p1, p2, 58, 64] ++ od ++ os) ++ (([t, c, y, z] ++ E) ++ tl)) =
      .ok { src_ip := IpAddr.V6 od, dst_ip := IpAddr.V6 os, src_port := 0, dst_port := 0,
            protocol := 58, ttl := 64,
            raw := ([96, 0, 0, 0, p1, p2, 58, 64] ++ od ++ os) ++
              (([t, c, y, z] ++ E) ++ tl) } := by
  have hlenD : (([96, 0, 0, 0, p1, p2, 58, 64] ++ od ++ os) ++
      (([t, c, y, z] ++ E) ++ tl)).length = 44 + E.length + tl.length := by
    simp [hod, hos]
    omega
  have hglit : ∀ kk, kk < 8 → (([96, 0, 0, 0, p1, p2, 58, 64] ++ od ++ os) ++
      (([t, c, y, z] ++ E) ++ tl)).getD kk 0 =
      [96, 0, 0, 0, p1, p2, 58, 64].getD kk 0 := by
    intro kk hkk
    rw [List.getD_append _ _ _ _ (by simp [hod, hos]; omega),
        List.getD_append _ _ _ _ (by simp [hod]; omega),
        List.getD_append _ _ _ _ (by simp; omega)]
  have hdrop8 : (([96, 0, 0, 0, p1, p2, 58, 64] ++ od ++ os) ++
      (([t, c, y, z] ++ E) ++ tl)).drop 8 =
      od ++ (os ++ (([t, c, y, z] ++ E) ++ tl)) := by
    rw [show (([96, 0, 0, 0, p1, p2, 58, 64] ++ od ++ os) ++ (([t, c, y, z] ++ E) ++ tl)) =
        [96, 0, 0, 0, p1, p2, 58, 64] ++ (od ++ (os ++ (([t, c, y, z] ++ E) ++ tl))) from by
      simp [List.append_assoc]]
    rw [List.drop_left' (by simp)]
  have hdrop24 : (([96, 0, 0, 0, p1, p2, 58, 64] ++ od ++ os) ++
      (([t, c, y, z] ++ E) ++ tl)).drop 24 =
      os ++ (([t, c, y, z] ++ E) ++ tl) := by
    rw [show (([96, 0, 0, 0, p1, p2, 58, 64] ++ od ++ os) ++ (([t, c, y, z] ++ E) ++ tl)) =
        ([96, 0, 0, 0, p1, p2, 58, 64] ++ od) ++ (os ++ (([t, c, y, z] ++ E) ++ tl)) from by
      simp [List.append_assoc]]
    rw [List.drop_left' (by simp [hod])]
  rw [parse]
  rw [if_neg (by rw [hlenD]; omega)]
  rw [hglit 0 (by omega), hglit 6 (by omega), hglit 7 (by omega)]
  rw [hlenD, hdrop8, hdrop24, List.take_left' hod, List.take_left' hos]
  norm_num
  intro hcontra
  exact absurd hcontra (by omega)

/-- C7: for every `PacketMeta` whose IP version matches the builder,
parsing the builder's output succeeds and yields a packet whose source
and destination are swapped relative to the original. -/
theorem C7_icmp_roundtrip (P P6 : PacketMeta) (t k t6 k6 m : Nat)
    (o1 o2 o3 o4 s1 s2 s3 s4 : Nat) (o6d o6s : List Nat)
    (hds : P.dst_ip = IpAddr.V4 [o1, o2, o3, o4])
    (hss : P.src_ip = IpAddr.V4 [s1, s2, s3, s4])
    (h6ds : P6.dst_ip = IpAddr.V6 o6d) (h6ss : P6.src_ip = IpAddr.V6 o6s)
    (h6od : o6d.length = 16) (h6os : o6s.length = 16) :
    (∃ Q, parse (generate_icmp_error P t k) = .ok Q ∧
      Q.src_ip = P.dst_ip ∧ Q.dst_ip = P.src_ip) ∧
    (∃ Q, parse (generate_fragmentation_needed P m) = .ok Q ∧
      Q.src_ip = P.dst_ip ∧ Q.dst_ip = P.src_ip) ∧
    (∃ Q, parse (generate_icmpv6_error P6 t6 k6) = .ok Q ∧
      Q.src_ip = P6.dst_ip ∧ Q.dst_ip = P6.src_ip) := by
  refine ⟨?_, ?_, ?_⟩
  · obtain ⟨x2, x3, y, z, hx, heq⟩ := gicmp_decomp P t k o1 o2 o3 o4 s1 s2 s3 s4 hds hss
    have h1 := parse_icmp_v4 o1 o2 o3 o4 s1 s2 s3 s4 x2 x3 y z
      ([t, k, 0, 0] ++ ([0, 0, 0, 0] ++ P.raw.take 28))
      (by rw [hx]; simp [List.length_append, List.length_take]; omega)
      (by simp [List.length_append, List.length_take]; omega)
      (by simp)
    rw [← heq] at h1
    exact ⟨_, h1, by rw [hds], by rw [hss]⟩
  · obtain ⟨x2, x3, y, z, hx, heq⟩ := gfn_decomp2 P m o1 o2 o3 o4 s1 s2 s3 s4 hds hss
    have h1 := parse_icmp_v4 o1 o2 o3 o4 s1 s2 s3 s4 x2 x3 y z
      ([3, 4, 0, 0] ++ ([m % 65536 / 256, m % 65536 % 256] ++ P.raw.take 28))
      (by rw [hx]; simp [List.length_append, List.length_take]; omega)
      (by simp [List.length_append, List.length_take]; omega)
      (by simp)
    rw [← heq] at h1
    exact ⟨_, h1, by rw [hds], by rw [hss]⟩
  · obtain ⟨p1, p2, y, z, heq6⟩ := gie_decomp P6 t6 k6 o6d o6s h6ds h6ss h6od h6os
    have h3 := parse_icmp_v6 p1 p2 t6 k6 y z o6d o6s
      (if t6 = 3 then [0, 0, 0, 0] else [])
      (P6.raw.take (if t6 = 3 then 1232 else 1236)) h6od h6os
    rw [← heq6] at h3
    exact ⟨_, h3, by rw [h6ds], by rw [h6ss]⟩

/-- Witness for `C7_icmp_roundtrip` at concrete packets. -/
theorem C7_icmp_roundtrip_witness :
    (∃ Q, parse (generate_icmp_error c3pkt 11 0) = .ok Q ∧
      Q.src_ip = c3pkt.dst_ip ∧ Q.dst_ip = c3pkt.src_ip) ∧
    (∃ Q, parse (generate_fragmentation_needed c3pkt 1500) = .ok Q ∧
      Q.src_ip = c3pkt.dst_ip ∧ Q.dst_ip = c3pkt.src_ip) ∧
    (∃ Q, parse (generate_icmpv6_error c3pkt6 3 0) = .ok Q ∧
      Q.src_ip = c3pkt6.dst_ip ∧ Q.dst_ip = c3pkt6.src_ip) :=
  C7_icmp_roundtrip c3pkt c3pkt6 11 0 3 0 1500
    192 168 0 2 192 168 0 1
    [32, 1, 13, 184, 0, 0, 0, 0, 0, 0, 0, 0, 0, 0, 0, 2]
    [32, 1, 13, 184, 0, 0, 0, 0, 0, 0, 0, 0, 0, 0, 0, 1]
    rfl rfl rfl rfl rfl rfl
lemma oLE_optMin_left {a b : Option Nat} {c : Nat} (h : oLE a c) : oLE (optMin a b) c := by
  obtain ⟨d, hd, hdc⟩ := h
  subst hd
  cases b with
  | none => exact ⟨d, rfl, hdc⟩
  | some e => exact ⟨min d e, rfl, le_trans (min_le_left _ _) hdc⟩

lemma oLE_optMin_right {a b : Option Nat} {c : Nat} (h : oLE b c) : oLE (optMin a b) c := by
  obtain ⟨d, hd, hdc⟩ := h
  subst hd
  cases a with
  | none => exact ⟨d, rfl, hdc⟩
  | some e => exact ⟨min e d, rfl, le_trans (min_le_right _ _) hdc⟩

lemma oGE_optMin {a b : Option Nat} {c : Nat} (ha : oGE a c) (hb : oGE b c) :
    oGE (optMin a b) c := by
  intro d hd
  cases a with
  | none => exact hb d hd
  | some x =>
    cases b with
    | none => exact ha d hd
    | some y =>
      simp only [optMin, Option.some.injEq] at hd
      subst hd
      rcases min_cases x y with ⟨hxy, _⟩ | ⟨hxy, _⟩
      · rw [hxy]; exact ha x rfl
      · rw [hxy]; exact hb y rfl

lemma optMin_some_inv {a b : Option Nat} {d : Nat} (h : optMin a b = some d) :
    a = some d ∨ b = some d := by
  cases a with
  | none => exact Or.inr h
  | some x =>
    cases b with
    | none => exact Or.inl h
    | some y =>
      simp only [optMin, Option.some.injEq] at h
      rcases min_cases x y with ⟨hxy, _⟩ | ⟨hxy, _⟩
      · exact Or.inl (by rw [← h, hxy])
      · exact Or.inr (by rw [← h, hxy])

/-- Folding `optMin` over mapped candidates: achieving one candidate. -/
lemma foldl_optMin_oLE {α : Type} (g : α → Option Nat) :
    ∀ (l : List α) (init : Option Nat) (c : Nat),
      (oLE init c ∨ ∃ p ∈ l, oLE (g p) c) →
      oLE (l.foldl (fun acc p => optMin acc (g p)) init) c := by
  intro l
  induction l with
  | nil =>
    intro init c h
    rcases h with h | ⟨p, hp, _⟩
    · exact h
    · exact absurd hp (List.not_mem_nil p)
  | cons x xs ih =>
    intro init c h
    simp only [List.foldl_cons]
    rcases h with h | ⟨p, hp, hle⟩
    · exact ih _ c (Or.inl (oLE_optMin_left h))
    · rcases List.mem_cons.mp hp with rfl | hmem
      · exact ih _ c (Or.inl (oLE_optMin_right hle))
      · exact ih _ c (Or.inr ⟨p, hmem, hle⟩)

lemma foldl_optMin_oGE {α : Type} (g : α → Option Nat) :
    ∀ (l : List α) (init : Option Nat) (c : Nat),
      oGE init c → (∀ p ∈ l, oGE (g p) c) →
      oGE (l.foldl (fun acc p => optMin acc (g p)) init) c := by
  intro l
  induction l with
  | nil => intro init c h _; exact h
  | cons x xs ih =>
    intro init c h hall
    simp only [List.foldl_cons]
    exact ih _ c (oGE_optMin h (hall x (List.mem_cons_self x xs)))
      (fun p hp => hall p (List.mem_cons_of_mem x hp))

lemma foldl_optMin_some_inv {α : Type} (g : α → Option Nat) :
    ∀ (l : List α) (init : Option Nat) (d : Nat),
      l.foldl (fun acc p => optMin acc (g p)) init = some d →
      init = some d ∨ ∃ p ∈ l, g p = some d := by
  intro l
  induction l with
  | nil => intro init d h; exact Or.inl h
  | cons x xs ih =>
    intro init d h
    simp only [List.foldl_cons] at h
    rcases ih _ d h with h2 | ⟨p, hp, hgp⟩
    · rcases optMin_some_inv h2 with h3 | h3
      · exact Or.inl h3
      · exact Or.inr ⟨x, List.mem_cons_self x xs, h3⟩
    · exact Or.inr ⟨p, List.mem_cons_of_mem x hp, hgp⟩

lemma lookup_map_pair (g : RouterId → Option Nat) :
    ∀ (l : List RouterId) (r : RouterId), r ∈ l →
      lookupD (l.map (fun x => (x, g x))) r = g r := by
  intro l
  induction l with
  | nil => intro r hr; exact absurd hr (List.not_mem_nil r)
  | cons x xs ih =>
    intro r hr
    simp only [List.map_cons, lookupD, List.lookup]
    by_cases hx : r = x
    · subst hx
      simp only [beq_self_eq_true]
    · have : (r == x) = false := beq_eq_false_iff_ne.mpr hx
      rw [this]
      rcases List.mem_cons.mp hr with h | h
      · exact absurd h hx
      · exact ih r h

lemma lookup_map_pair_notin (g : RouterId → Option Nat) :
    ∀ (l : List RouterId) (r : RouterId), r ∉ l →
      lookupD (l.map (fun x => (x, g x))) r = none := by
  intro l
  induction l with
  | nil => intro r _; rfl
  | cons x xs ih =>
    intro r hr
    simp only [List.map_cons, lookupD, List.lookup]
    have hx : r ≠ x := fun h => hr (h ▸ List.mem_cons_self x xs)
    have : (r == x) = false := beq_eq_false_iff_ne.mpr hx
    rw [this]
    exact ih r (fun h => hr (List.mem_cons_of_mem x h))

lemma dv_zero (f : Fabric) (src r : RouterId) (hr : r ∈ f.routers) :
    lookupD (distIter f src 0) r = if r = src then some 0 else none := by
  exact lookup_map_pair (fun x => if x = src then some 0 else none) f.routers r hr

lemma dv_succ (f : Fabric) (src r : RouterId) (n : Nat) (hr : r ∈ f.routers) :
    lookupD (distIter f src (n + 1)) r =
      optMin (lookupD (distIter f src n) r)
        (relaxNeighbors f (distIter f src n) r) := by
  show lookupD (f.routers.map (fun x =>
    (x, optMin (lookupD (distIter f src n) x)
      (relaxNeighbors f (distIter f src n) x)))) r = _
  exact lookup_map_pair _ f.routers r hr

lemma dv_notin (f : Fabric) (src r : RouterId) (n : Nat) (hr : r ∉ f.routers) :
    lookupD (distIter f src n) r = none := by
  cases n with
  | zero => exact lookup_map_pair_notin _ f.routers r hr
  | succ m =>
    show lookupD (f.routers.map (fun x =>
      (x, optMin (lookupD (distIter f src m) x)
        (relaxNeighbors f (distIter f src m) x)))) r = _
    exact lookup_map_pair_notin _ f.routers r hr

/-- Membership characterization of the neighbor iteration. -/
lemma edgesOf_mem {f : Fabric} {u v : RouterId} {cfg : LinkConfig} :
    (v, cfg) ∈ edgesOf f u ↔
      ∃ l ∈ f.links, cfg = l.cfg ∧
        ((l.id.a = u ∧ l.id.b = v) ∨ (l.id.a ≠ u ∧ l.id.b = u ∧ l.id.a = v)) := by
  simp only [edgesOf, List.mem_filterMap, List.mem_reverse]
  constructor
  · rintro ⟨l, hl, hsome⟩
    by_cases ha : l.id.a = u
    · simp only [ha, if_true, Option.some.injEq, Prod.mk.injEq] at hsome
      exact ⟨l, hl, hsome.2.symm, Or.inl ⟨ha, hsome.1⟩⟩
    · simp only [ha, if_false] at hsome
      by_cases hb : l.id.b = u
      · simp only [hb, if_true, Option.some.injEq, Prod.mk.injEq] at hsome
        exact ⟨l, hl, hsome.2.symm, Or.inr ⟨ha, hb, hsome.1⟩⟩
      · simp only [hb, if_false] at hsome
        exact absurd hsome (Option.noConfusion)
  · rintro ⟨l, hl, hcfg, ⟨ha, hb⟩ | ⟨hna, hb, ha⟩⟩
    · exact ⟨l, hl, by simp only [ha, if_true, hb, hcfg]⟩
    · exact ⟨l, hl, by rw [if_neg hna, if_pos hb, ha, hcfg]⟩

lemma edgesOf_symm {f : Fabric} {u v : RouterId} {cfg : LinkConfig}
    (h : (v, cfg) ∈ edgesOf f u) : (u, cfg) ∈ edgesOf f v := by
  rcases edgesOf_mem.mp h with ⟨l, hl, hcfg, ⟨ha, hb⟩ | ⟨hna, hb, ha⟩⟩
  · by_cases hav : l.id.a = v
    · exact edgesOf_mem.mpr ⟨l, hl, hcfg, Or.inl ⟨hav, by rw [← ha, hav, ← hb]⟩⟩
    · exact edgesOf_mem.mpr ⟨l, hl, hcfg, Or.inr ⟨hav, hb, ha⟩⟩
  · exact edgesOf_mem.mpr ⟨l, hl, hcfg, Or.inl ⟨ha, hb⟩⟩

lemma edgeW_symm {f : Fabric} {u v : RouterId} {cw : Nat} (h : edgeW f u v cw) :
    edgeW f v u cw := by
  obtain ⟨cfg, hmem, hw⟩ := h
  exact ⟨cfg, edgesOf_symm hmem, hw⟩

lemma edgeW_src_mem {f : Fabric} (hwf : f.wf) {u v : RouterId} {cw : Nat}
    (h : edgeW f u v cw) : u ∈ f.routers := by
  obtain ⟨cfg, hmem, _⟩ := h
  rcases edgesOf_mem.mp hmem with ⟨l, hl, _, ⟨ha, _⟩ | ⟨_, hb, _⟩⟩
  · exact ha ▸ (hwf.2 l hl).1
  · exact hb ▸ (hwf.2 l hl).2

lemma edgeW_dst_mem {f : Fabric} (hwf : f.wf) {u v : RouterId} {cw : Nat}
    (h : edgeW f u v cw) : v ∈ f.routers := by
  obtain ⟨cfg, hmem, _⟩ := h
  rcases edgesOf_mem.mp hmem with ⟨l, hl, _, ⟨_, hb⟩ | ⟨_, _, ha⟩⟩
  · exact hb ▸ (hwf.2 l hl).2
  · exact ha ▸ (hwf.2 l hl).1

lemma optMin_some_zero (b : Option Nat) : optMin (some 0) b = some 0 := by
  cases b with
  | none => rfl
  | some y => simp only [optMin, Nat.zero_min]

lemma dv_src (f : Fabric) (src : RouterId) (hsrc : src ∈ f.routers) :
    ∀ n, lookupD (distIter f src n) src = some 0 := by
  intro n
  induction n with
  | zero => rw [dv_zero f src src hsrc, if_pos rfl]
  | succ k ih => rw [dv_succ f src src k hsrc, ih, optMin_some_zero]

/-- Soundness: every value produced by the iteration is the cost of an
actual walk. -/
lemma dv_sound (f : Fabric) (src : RouterId) :
    ∀ (n : Nat) (r : RouterId) (d : Nat),
      lookupD (distIter f src n) r = some d → ∃ m, Walk f src r d m := by
  intro n
  induction n with
  | zero =>
    intro r d h
    by_cases hr : r ∈ f.routers
    · rw [dv_zero f src r hr] at h
      by_cases hs : r = src
      · rw [if_pos hs] at h
        obtain rfl : (0 : Nat) = d := Option.some.injEq _ _ ▸ h
        exact hs ▸ ⟨0, Walk.refl⟩
      · rw [if_neg hs] at h
        exact absurd h (Option.noConfusion)
    · rw [dv_notin f src r 0 hr] at h
      exact absurd h (Option.noConfusion)
  | succ k ih =>
    intro r d h
    by_cases hr : r ∈ f.routers
    · rw [dv_succ f src r k hr] at h
      rcases optMin_some_inv h with h2 | h2
      · exact ih r d h2
      · simp only [relaxNeighbors] at h2
        rcases foldl_optMin_some_inv
          (fun p => (lookupD (distIter f src k) p.1).map (· + w p.2))
          (edgesOf f r) none d h2 with h3 | ⟨p, hp, hgp⟩
        · exact absurd h3 (Option.noConfusion)
        · rcases Option.map_eq_some'.mp hgp with ⟨dn, hdn, hsum⟩
          obtain ⟨m, hwalk⟩ := ih p.1 dn hdn
          refine ⟨m + 1, ?_⟩
          have hedge : edgeW f p.1 r (w p.2) := ⟨p.2, edgesOf_symm hp, rfl⟩
          exact hsum ▸ Walk.step hwalk hedge
    · rw [dv_notin f src r (k + 1) hr] at h
      exact absurd h (Option.noConfusion)

/-- Completeness: after `n` rounds the iteration undercuts every walk
of at most `n` edges. -/
lemma dv_complete (f : Fabric) (hwf : f.wf) (src : RouterId) (hsrc : src ∈ f.routers) :
    ∀ {r : RouterId} {c m : Nat}, Walk f src r c m →
      ∀ n, m ≤ n → oLE (lookupD (distIter f src n) r) c := by
  intro r c m hwalk
  induction hwalk with
  | refl => intro n _; exact ⟨0, dv_src f src hsrc n, le_refl 0⟩
  | @step u v c m cw hw hedge ih =>
    intro n hn
    cases n with
    | zero => exact absurd hn (by omega)
    | succ k =>
      obtain ⟨du, hdu, hduc⟩ := ih k (by omega)
      obtain ⟨cfg, hmem, hcw⟩ := hedge
      have hv : v ∈ f.routers := edgeW_dst_mem hwf ⟨cfg, hmem, hcw⟩
      rw [dv_succ f src v k hv]
      apply oLE_optMin_right
      show oLE ((edgesOf f v).foldl
        (fun acc p => optMin acc ((lookupD (distIter f src k) p.1).map (· + w p.2))) none) (c + cw)
      apply foldl_optMin_oLE
        (fun p => (lookupD (distIter f src k) p.1).map (· + w p.2))
        (edgesOf f v) none (c + cw)
      refine Or.inr ⟨(u, cfg), edgesOf_symm hmem, ?_⟩
      exact ⟨du + w cfg, by rw [hdu]; rfl, by omega⟩

lemma walk_to_chain {f : Fabric} {src r : RouterId} {c n : Nat}
    (h : Walk f src r c n) : ∃ vs, ChainW f src vs r c ∧ vs.length = n := by
  induction h with
  | refl => exact ⟨[], ChainW.refl src, rfl⟩
  | @step u v c m cw hw hedge ih =>
    obtain ⟨vs, hc, hlen⟩ := ih
    exact ⟨vs ++ [u], ChainW.step hc hedge, by simp [hlen]⟩

lemma chain_to_walk {f : Fabric} {s : RouterId} {vs : List RouterId} {t : RouterId}
    {c : Nat} (h : ChainW f s vs t c) : Walk f s t c vs.length := by
  induction h with
  | refl => exact Walk.refl
  | @step vs u v c cw hc hedge ih =>
    have := Walk.step ih hedge
    simpa using this

lemma chain_mem_routers {f : Fabric} (hwf : f.wf) {s : RouterId} {vs : List RouterId}
    {t : RouterId} {c : Nat} (h : ChainW f s vs t c) : ∀ x ∈ vs, x ∈ f.routers := by
  induction h with
  | refl => intro x hx; exact absurd hx (List.not_mem_nil x)
  | @step vs u v c cw hc hedge ih =>
    intro x hx
    rcases List.mem_append.mp hx with h1 | h1
    · exact ih x h1
    · rcases List.mem_singleton.mp h1 with rfl
      exact edgeW_src_mem hwf hedge

lemma chain_compose {f : Fabric} {s : RouterId} {vs : List RouterId} {u : RouterId}
    {c1 : Nat} (h1 : ChainW f s vs u c1) :
    ∀ {ws : List RouterId} {t : RouterId} {c2 : Nat}, ChainW f u ws t c2 →
      ChainW f s (vs ++ ws) t (c1 + c2) := by
  intro ws t c2 h2
  induction h2 with
  | refl => simpa using h1
  | @step ws2 u2 v2 c cw hc hedge ih =>
    have := ChainW.step ih hedge
    rw [List.append_assoc] at this
    rw [Nat.add_assoc] at this
    exact this

lemma chain_split {f : Fabric} {s : RouterId} {L : List RouterId} {t : RouterId}
    {c : Nat} (h : ChainW f s L t c) :
    ∀ vs1 x vs2, L = vs1 ++ x :: vs2 →
      ∃ c1 c2, ChainW f s vs1 x c1 ∧ ChainW f x (x :: vs2) t c2 ∧ c = c1 + c2 := by
  induction h with
  | refl =>
    intro vs1 x vs2 h
    exact absurd h.symm (List.append_ne_nil_of_right_ne_nil vs1 (List.cons_ne_nil x vs2))
  | @step vs u v c cw hc hedge ih =>
    intro vs1 x vs2 h
    rcases List.eq_nil_or_concat vs2 with rfl | ⟨vs2h, z, rfl⟩
    · have h2 : vs ++ [u] = vs1 ++ [x] := by simpa using h
      obtain ⟨hvs, hux⟩ := List.append_inj h2 (by
        have := congrArg List.length h2
        simpa using this)
      obtain rfl : u = x := by simpa using hux
      refine ⟨c, cw, hvs ▸ hc, ?_, rfl⟩
      have := ChainW.step (ChainW.refl u) hedge
      simpa using this
    · have h2 : vs ++ [u] = (vs1 ++ x :: vs2h) ++ [z] := by
        rw [h]; simp
      obtain ⟨hvs, huz⟩ := List.append_inj h2 (by
        have h3 := congrArg List.length h2
        simp at h3 ⊢
        omega)
      obtain rfl : u = z := by simpa using huz
      obtain ⟨c1, c2, hca, hcb, hsum⟩ := ih vs1 x vs2h hvs
      refine ⟨c1, c2 + cw, hca, ?_, by omega⟩
      have := ChainW.step hcb hedge
      simpa using this

lemma not_nodup_decomp {α : Type} [DecidableEq α] :
    ∀ {l : List α}, ¬ l.Nodup → ∃ l1 x l2 l3, l = l1 ++ x :: (l2 ++ x :: l3) := by
  intro l
  induction l with
  | nil => intro h; exact absurd List.nodup_nil h
  | cons a l ih =>
    intro h
    rw [List.nodup_cons] at h
    by_cases ha : a ∈ l
    · obtain ⟨s, t, rfl⟩ := List.append_of_mem ha
      exact ⟨[], a, s, t, by simp⟩
    · have : ¬ l.Nodup := fun hn => h ⟨ha, hn⟩
      obtain ⟨l1, x, l2, l3, rfl⟩ := ih this
      exact ⟨a :: l1, x, l2, l3, rfl⟩

lemma chain_shorten {f : Fabric} :
    ∀ (k : Nat) {s : RouterId} {vs : List RouterId} {t : RouterId} {c : Nat},
      vs.length ≤ k → ChainW f s vs t c →
      ∃ vsh ch, ChainW f s vsh t ch ∧ ch ≤ c ∧ vsh.Nodup ∧ ∀ x ∈ vsh, x ∈ vs := by
  intro k
  induction k with
  | zero =>
    intro s vs t c hlen h
    obtain rfl : vs = [] := List.eq_nil_of_length_eq_zero (Nat.le_zero.mp hlen)
    exact ⟨[], c, h, le_refl c, List.nodup_nil, fun x hx => hx⟩
  | succ k ih =>
    intro s vs t c hlen h
    by_cases hnd : vs.Nodup
    · exact ⟨vs, c, h, le_refl c, hnd, fun x hx => hx⟩
    · obtain ⟨l1, x, l2, l3, rfl⟩ := not_nodup_decomp hnd
      obtain ⟨c1, c2, hca, hcb, hsum⟩ := chain_split h l1 x (l2 ++ x :: l3) rfl
      obtain ⟨c21, c22, hcb1, hcb2, hsum2⟩ := chain_split hcb (x :: l2) x l3 (by simp)
      have hcomp := chain_compose hca hcb2
      have hlen2 : (l1 ++ x :: l3).length ≤ k := by
        simp only [List.length_append, List.length_cons] at hlen ⊢
        omega
      obtain ⟨vsh, ch, hchain, hle, hnodup, hsub⟩ := ih hlen2 hcomp
      refine ⟨vsh, ch, hchain, by omega, hnodup, ?_⟩
      intro y hy
      rcases List.mem_append.mp (hsub y hy) with h1 | h1
      · exact List.mem_append.mpr (Or.inl h1)
      · rcases List.mem_cons.mp h1 with rfl | h2
        · exact List.mem_append.mpr (Or.inr (List.mem_cons_self _ _))
        · refine List.mem_append.mpr (Or.inr ?_)
          refine List.mem_cons_of_mem _ ?_
          exact List.mem_append.mpr (Or.inr (List.mem_cons_of_mem _ h2))

lemma walk_shorten {f : Fabric} (hwf : f.wf) {src r : RouterId} {c n : Nat}
    (h : Walk f src r c n) :
    ∃ ch m, ch ≤ c ∧ m ≤ f.routers.length ∧ Walk f src r ch m := by
  obtain ⟨vs, hchain, hlenn⟩ := walk_to_chain h
  obtain ⟨vsh, ch, hchain2, hle, hnodup, hsub⟩ := chain_shorten vs.length (le_refl _) hchain
  have hmem : ∀ x ∈ vsh, x ∈ f.routers :=
    fun x hx => chain_mem_routers hwf hchain x (hsub x hx)
  have hcard : vsh.length ≤ f.routers.length := by
    have h1 : vsh.toFinset.card = vsh.length := List.toFinset_card_of_nodup hnodup
    have h2 : vsh.toFinset ⊆ f.routers.toFinset := by
      intro a ha
      exact List.mem_toFinset.mpr (hmem a (List.mem_toFinset.mp ha))
    have h3 : f.routers.toFinset.card ≤ f.routers.length := List.toFinset_card_le _
    have h4 := Finset.card_le_card h2
    omega
  exact ⟨ch, vsh.length, hle, hcard, chain_to_walk hchain2⟩

lemma isShortestDist_unique {f : Fabric} {src r : RouterId} {d1 d2 : Nat}
    (h1 : IsShortestDist f src r d1) (h2 : IsShortestDist f src r d2) : d1 = d2 := by
  obtain ⟨⟨n1, hw1⟩, hmin1⟩ := h1
  obtain ⟨⟨n2, hw2⟩, hmin2⟩ := h2
  exact Nat.le_antisymm (hmin1 d2 n2 hw2) (hmin2 d1 n1 hw1)

/-- The value-iteration model computes exactly the shortest-path
distances: present precisely on reachable routers, and then equal to
the minimum walk cost. -/
theorem dijkstraDist_shortest {f : Fabric} (hwf : f.wf) {src r : RouterId}
    (hsrc : src ∈ f.routers) (hreach : Reaches f src r) :
    ∃ d, dijkstraDist f src r = some d ∧ IsShortestDist f src r d := by
  obtain ⟨c0, n0, hw0⟩ := hreach
  obtain ⟨c1, n1, hc1, hn1, hw1⟩ := walk_shorten hwf hw0
  obtain ⟨d, hd, hdc⟩ := dv_complete f hwf src hsrc hw1 f.routers.length hn1
  refine ⟨d, hd, ⟨dv_sound f src f.routers.length r d hd, ?_⟩⟩
  intro c n hw
  obtain ⟨c2, n2, hc2, hn2, hw2⟩ := walk_shorten hwf hw
  obtain ⟨d2, hd2, hd2c⟩ := dv_complete f hwf src hsrc hw2 f.routers.length hn2
  have : d = d2 := by
    rw [hd] at hd2
    exact Option.some.injEq _ _ ▸ hd2
  omega

lemma findSome?_eq_some_split {α β : Type} (g : α → Option β) :
    ∀ {l : List α} {b : β}, l.findSome? g = some b →
      ∃ l1 x l2, l = l1 ++ x :: l2 ∧ g x = some b ∧ ∀ y ∈ l1, g y = none := by
  intro l
  induction l with
  | nil => intro b h; exact absurd h (Option.noConfusion)
  | cons a l ih =>
    intro b h
    cases ha : g a with
    | some c =>
      simp only [List.findSome?_cons, ha] at h
      exact ⟨[], a, l, rfl, by rw [ha, h], fun y hy => absurd hy (List.not_mem_nil y)⟩
    | none =>
      simp only [List.findSome?_cons, ha] at h
      obtain ⟨l1, x, l2, rfl, hgx, hnone⟩ := ih h
      refine ⟨a :: l1, x, l2, rfl, hgx, ?_⟩
      intro y hy
      rcases List.mem_cons.mp hy with rfl | hy2
      · exact ha
      · exact hnone y hy2

lemma findSome?_eq_none_all {α β : Type} (g : α → Option β) :
    ∀ {l : List α}, l.findSome? g = none → ∀ y ∈ l, g y = none := by
  intro l
  induction l with
  | nil => intro _ y hy; exact absurd hy (List.not_mem_nil y)
  | cons a l ih =>
    intro h y hy
    cases ha : g a with
    | some c =>
      simp only [List.findSome?_cons, ha] at h
      exact absurd h (Option.noConfusion)
    | none =>
      simp only [List.findSome?_cons, ha] at h
      rcases List.mem_cons.mp hy with rfl | hy2
      · exact ha
      · exact ih h y hy2

lemma dijkstraDist_some_shortest {f : Fabric} (hwf : f.wf) {src x : RouterId}
    (hsrc : src ∈ f.routers) {d : Nat} (h : dijkstraDist f src x = some d) :
    IsShortestDist f src x d := by
  have hreach : Reaches f src x := by
    obtain ⟨m, hw⟩ := dv_sound f src (dijkstraFuel f) x d h
    exact ⟨d, m, hw⟩
  obtain ⟨d2, hd2, hshort⟩ := dijkstraDist_shortest hwf hsrc hreach
  rw [h] at hd2
  exact (Option.some.injEq _ _ ▸ hd2) ▸ hshort

lemma route_for_spec (f : Fabric) (hwf : f.wf) (src r : RouterId)
    (hsrc : src ∈ f.routers) (hreach : Reaches f src r) :
    IsShortestDist f src r (route_for f (dijkstraDist f src) src r).total_cost ∧
    (r = src → (route_for f (dijkstraDist f src) src r).next_hop = r) ∧
    (r ≠ src →
      ((∀ p ∈ edgesOf f r, ¬ QualifiesSpec f src r p) ∧
        (route_for f (dijkstraDist f src) src r).next_hop = r) ∨
      (∃ l1 p l2, edgesOf f r = l1 ++ p :: l2 ∧ QualifiesSpec f src r p ∧
        (∀ q ∈ l1, ¬ QualifiesSpec f src r q) ∧
        (route_for f (dijkstraDist f src) src r).next_hop = p.1)) := by
  obtain ⟨d, hd, hshort⟩ := dijkstraDist_shortest hwf hsrc hreach
  refine ⟨?_, ?_, ?_⟩
  · show IsShortestDist f src r ((dijkstraDist f src r).getD 4294967295)
    rw [hd]
    exact hshort
  · intro hrs
    show (if r = src then r else (firstQualifying f (dijkstraDist f src) r).getD r) = r
    rw [if_pos hrs]
  · intro hrs
    show _ ∨ _
    cases hfq : firstQualifying f (dijkstraDist f src) r with
    | none =>
      left
      have hfq2 := hfq
      simp only [firstQualifying] at hfq2
      have hall := findSome?_eq_none_all _ hfq2
      constructor
      · intro p hp hq
        have hgp := hall p hp
        obtain ⟨dn2, dr2, s1, s2, hsum⟩ := hq
        have hreachp : Reaches f src p.1 := s1.1.elim (fun m hw => ⟨dn2, m, hw⟩)
        obtain ⟨dp, hdp, shortp⟩ := dijkstraDist_shortest hwf hsrc hreachp
        have he1 : dn2 = dp := isShortestDist_unique s1 shortp
        have he2 : dr2 = d := isShortestDist_unique s2 hshort
        simp only [hdp, hd] at hgp
        rw [if_pos (by omega)] at hgp
        exact Option.noConfusion hgp
      · show (if r = src then r else (firstQualifying f (dijkstraDist f src) r).getD r) = r
        rw [if_neg hrs, hfq]
        rfl
    | some nh =>
      right
      have hfq2 := hfq
      simp only [firstQualifying] at hfq2
      obtain ⟨l1, p, l2, heq, hgp, hnone⟩ := findSome?_eq_some_split _ hfq2
      have hmain : nh = p.1 ∧ QualifiesSpec f src r p := by
        cases hdp : dijkstraDist f src p.1 with
        | none =>
          simp only [hdp] at hgp
          exact absurd hgp (Option.noConfusion)
        | some dn =>
          have shortp : IsShortestDist f src p.1 dn := dijkstraDist_some_shortest hwf hsrc hdp
          simp only [hdp, hd] at hgp
          by_cases hcond : dn + w p.2 = d
          · rw [if_pos hcond] at hgp
            exact ⟨(Option.some.injEq _ _ ▸ hgp).symm, ⟨dn, d, shortp, hshort, hcond⟩⟩
          · rw [if_neg hcond] at hgp
            exact absurd hgp (Option.noConfusion)
      refine ⟨l1, p, l2, heq, hmain.2, ?_, ?_⟩
      · intro q hq hqq
        have hgq := hnone q hq
        obtain ⟨dn2, dr2, s1, s2, hsum⟩ := hqq
        have hreachq : Reaches f src q.1 := s1.1.elim (fun m hw => ⟨dn2, m, hw⟩)
        obtain ⟨dq, hdq, shortq⟩ := dijkstraDist_shortest hwf hsrc hreachq
        have he1 : dn2 = dq := isShortestDist_unique s1 shortq
        have he2 : dr2 = d := isShortestDist_unique s2 hshort
        simp only [hdq, hd] at hgq
        rw [if_pos (by omega)] at hgq
        exact Option.noConfusion hgq
      · show (if r = src then r else (firstQualifying f (dijkstraDist f src) r).getD r) = p.1
        rw [if_neg hrs, hfq]
        exact hmain.1

lemma walk_end_mem {f : Fabric} (hwf : f.wf) {src r : RouterId} {c n : Nat}
    (hsrc : src ∈ f.routers) (h : Walk f src r c n) : r ∈ f.routers := by
  induction h with
  | refl => exact hsrc
  | step hw hedge ih => exact edgeW_dst_mem hwf hedge

/-- C4: in a connected fabric the single-path routing table column for
each tunnel carries the shortest-path distance as `total_cost`, the
self sentinel at the ingress, and otherwise the first neighbor on a
shortest path (or self if none qualifies). -/
theorem C4_compute_routing (f : Fabric) (a b r : RouterId)
    (hwf : f.wf) (ha : a ∈ f.routers) (hb : b ∈ f.routers)
    (hra : Reaches f a r) (hrb : Reaches f b r) :
    ∃ t, compute_routing f a b r = some t ∧
      IsShortestDist f a r t.tun_a.total_cost ∧
      IsShortestDist f b r t.tun_b.total_cost ∧
      (r = a → t.tun_a.next_hop = r) ∧
      (r = b → t.tun_b.next_hop = r) ∧
      (r ≠ a → NextHopSpec f a r t.tun_a.next_hop) ∧
      (r ≠ b → NextHopSpec f b r t.tun_b.next_hop) := by
  have hr : r ∈ f.routers := by
    obtain ⟨c, n, hw⟩ := hra
    exact walk_end_mem hwf ha hw
  obtain ⟨hA1, hA2, hA3⟩ := route_for_spec f hwf a r ha hra
  obtain ⟨hB1, hB2, hB3⟩ := route_for_spec f hwf b r hb hrb
  refine ⟨{ tun_a := route_for f (dijkstraDist f a) a r,
            tun_b := route_for f (dijkstraDist f b) b r }, ?_, hA1, hB1, hA2, hB2, ?_, ?_⟩
  · show (if r ∈ f.routers then _ else none) = _
    rw [if_pos hr]
  · intro hne
    rcases hA3 hne with ⟨h1, h2⟩ | ⟨l1, p, l2, h1, h2, h3, h4⟩
    · exact Or.inl ⟨h1, h2⟩
    · exact Or.inr ⟨l1, p, l2, h1, h2, h3, h4⟩
  · intro hne
    rcases hB3 hne with ⟨h1, h2⟩ | ⟨l1, p, l2, h1, h2, h3, h4⟩
    · exact Or.inl ⟨h1, h2⟩
    · exact Or.inr ⟨l1, p, l2, h1, h2, h3, h4⟩

lemma s5_wf : s5.wf := by
  unfold Fabric.wf
  decide

lemma s5_reach_a : Reaches s5 "Rx0y0" "Rx0y1" := by
  refine ⟨5, 1, ?_⟩
  have hmem : ("Rx0y1", lc 5) ∈ edgesOf s5 "Rx0y0" := by
    show ("Rx0y1", lc 5) ∈ [("Rx0y2", lc 10), ("Rx0y1", lc 5)]
    exact List.Mem.tail _ (List.Mem.head _)
  exact Walk.step Walk.refl ⟨lc 5, hmem, rfl⟩

lemma s5_reach_b : Reaches s5 "Rx0y2" "Rx0y1" := by
  refine ⟨5, 1, ?_⟩
  have hmem : ("Rx0y1", lc 5) ∈ edgesOf s5 "Rx0y2" := by
    show ("Rx0y1", lc 5) ∈ [("Rx0y1", lc 5), ("Rx0y0", lc 10)]
    exact List.Mem.head _
  exact Walk.step Walk.refl ⟨lc 5, hmem, rfl⟩

/-- Witness for C4 at scenario 5, router `Rx0y1`. -/
theorem C4_compute_routing_witness :
    ∃ t, compute_routing s5 "Rx0y0" "Rx0y2" "Rx0y1" = some t ∧
      IsShortestDist s5 "Rx0y0" "Rx0y1" t.tun_a.total_cost ∧
      IsShortestDist s5 "Rx0y2" "Rx0y1" t.tun_b.total_cost ∧
      ("Rx0y1" = "Rx0y0" → t.tun_a.next_hop = "Rx0y1") ∧
      ("Rx0y1" = "Rx0y2" → t.tun_b.next_hop = "Rx0y1") ∧
      ("Rx0y1" ≠ "Rx0y0" → NextHopSpec s5 "Rx0y0" "Rx0y1" t.tun_a.next_hop) ∧
      ("Rx0y1" ≠ "Rx0y2" → NextHopSpec s5 "Rx0y2" "Rx0y1" t.tun_b.next_hop) :=
  C4_compute_routing s5 "Rx0y0" "Rx0y2" "Rx0y1" s5_wf (by decide) (by decide)
    s5_reach_a s5_reach_b

lemma minFold_le_init (dist : RouterId → Option Nat) :
    ∀ (E : List (RouterId × LinkConfig)) (m : Nat), minFold dist m E ≤ m := by
  intro E
  induction E with
  | nil => intro m; exact le_refl m
  | cons p E ih =>
    intro m
    cases hdp : dist p.1 with
    | none =>
      have h : minFold dist m (p :: E) = minFold dist m E := by
        simp only [minFold, List.foldl_cons, hdp, Option.map_none']
      rw [h]; exact ih m
    | some dn =>
      have h : minFold dist m (p :: E) = minFold dist (min m (dn + w p.2)) E := by
        simp only [minFold, List.foldl_cons, hdp, Option.map_some']
      rw [h]
      exact le_trans (ih _) (min_le_left _ _)

lemma mp_fold_snd (dist : RouterId → Option Nat) :
    ∀ (E : List (RouterId × LinkConfig)) (es : List RouteEntry) (m : Nat),
      (E.foldl (mpStep dist) (es, m)).2 = minFold dist m E := by
  intro E
  induction E with
  | nil => intro es m; rfl
  | cons p E ih =>
    intro es m
    simp only [List.foldl_cons]
    cases hdp : dist p.1 with
    | none =>
      have h1 : mpStep dist (es, m) p = (es, m) := by simp only [mpStep, hdp]
      have h2 : minFold dist m (p :: E) = minFold dist m E := by
        simp only [minFold, List.foldl_cons, hdp, Option.map_none']
      rw [h1, h2]
      exact ih es m
    | some dn =>
      have h2 : minFold dist m (p :: E) = minFold dist (min m (dn + w p.2)) E := by
        simp only [minFold, List.foldl_cons, hdp, Option.map_some']
      rw [h2]
      by_cases hlt : dn + w p.2 < m
      · have h1 : mpStep dist (es, m) p =
            ([{ next_hop := p.1, total_cost := dn + w p.2 }], dn + w p.2) := by
          simp only [mpStep, hdp]
          rw [if_pos hlt]
        rw [h1]
        have hmin : min m (dn + w p.2) = dn + w p.2 := min_eq_right (le_of_lt hlt)
        rw [hmin]
        exact ih _ _
      · by_cases heq : dn + w p.2 = m
        · have h1 : mpStep dist (es, m) p =
              (es ++ [{ next_hop := p.1, total_cost := dn + w p.2 }], m) := by
            simp only [mpStep, hdp]
            rw [if_neg hlt, if_pos heq]
          rw [h1]
          have hmin : min m (dn + w p.2) = m := by omega
          rw [hmin]
          exact ih _ _
        · have h1 : mpStep dist (es, m) p = (es, m) := by
            simp only [mpStep, hdp]
            rw [if_neg hlt, if_neg heq]
          rw [h1]
          have hmin : min m (dn + w p.2) = m := by omega
          rw [hmin]
          exact ih _ _

lemma filterMap_cons_none {α β : Type} {g : α → Option β} {a : α} {l : List α}
    (h : g a = none) : (a :: l).filterMap g = l.filterMap g := by
  simp [List.filterMap_cons, h]

lemma filterMap_cons_some {α β : Type} {g : α → Option β} {a : α} {l : List α} {b : β}
    (h : g a = some b) : (a :: l).filterMap g = b :: l.filterMap g := by
  simp [List.filterMap_cons, h]

lemma mp_fold_fst (dist : RouterId → Option Nat) :
    ∀ (E : List (RouterId × LinkConfig)) (es : List RouteEntry) (m : Nat),
      (∀ e ∈ es, e.total_cost = m) →
      (E.foldl (mpStep dist) (es, m)).1 =
        (if minFold dist m E = m then es else []) ++
          E.filterMap (ecmpEntriesAt dist (minFold dist m E)) := by
  intro E
  induction E with
  | nil =>
    intro es m _
    show es = (if m = m then es else []) ++ []
    rw [if_pos rfl, List.append_nil]
  | cons p E ih =>
    intro es m hes
    simp only [List.foldl_cons]
    cases hdp : dist p.1 with
    | none =>
      have h1 : mpStep dist (es, m) p = (es, m) := by simp only [mpStep, hdp]
      have h2 : minFold dist m (p :: E) = minFold dist m E := by
        simp only [minFold, List.foldl_cons, hdp, Option.map_none']
      have h3 : ecmpEntriesAt dist (minFold dist m (p :: E)) p = none := by
        simp only [ecmpEntriesAt, hdp, Option.map_none']
      rw [h1, h2, filterMap_cons_none (h2 ▸ h3)]
      exact ih es m hes
    | some dn =>
      have h2 : minFold dist m (p :: E) = minFold dist (min m (dn + w p.2)) E := by
        simp only [minFold, List.foldl_cons, hdp, Option.map_some']
      rw [h2]
      by_cases hlt : dn + w p.2 < m
      · have h1 : mpStep dist (es, m) p =
            ([{ next_hop := p.1, total_cost := dn + w p.2 }], dn + w p.2) := by
          simp only [mpStep, hdp]
          rw [if_pos hlt]
        have hmin : min m (dn + w p.2) = dn + w p.2 := min_eq_right (le_of_lt hlt)
        rw [h1, hmin]
        have hM := minFold_le_init dist E (dn + w p.2)
        have hne : minFold dist (dn + w p.2) E ≠ m := by omega
        have hstep := ih [{ next_hop := p.1, total_cost := dn + w p.2 }] (dn + w p.2)
          (by intro e he; rcases List.mem_singleton.mp he with rfl; rfl)
        rw [hstep, if_neg hne]
        by_cases hcM : dn + w p.2 = minFold dist (dn + w p.2) E
        · have hsome : ecmpEntriesAt dist (minFold dist (dn + w p.2) E) p =
              some { next_hop := p.1, total_cost := dn + w p.2 } := by
            simp only [ecmpEntriesAt, hdp, Option.map_some']
            rw [if_pos hcM]
          rw [filterMap_cons_some hsome]
          rw [if_pos hcM.symm]
          rfl
        · have hnone : ecmpEntriesAt dist (minFold dist (dn + w p.2) E) p = none := by
            simp only [ecmpEntriesAt, hdp, Option.map_some']
            rw [if_neg hcM]
          rw [filterMap_cons_none hnone]
          rw [if_neg (fun hh => hcM hh.symm)]
      · by_cases heq : dn + w p.2 = m
        · have h1 : mpStep dist (es, m) p =
              (es ++ [{ next_hop := p.1, total_cost := dn + w p.2 }], m) := by
            simp only [mpStep, hdp]
            rw [if_neg hlt, if_pos heq]
          have hmin : min m (dn + w p.2) = m := by omega
          rw [h1, hmin]
          have hstep := ih (es ++ [{ next_hop := p.1, total_cost := dn + w p.2 }]) m
            (by
              intro e he
              rcases List.mem_append.mp he with h | h
              · exact hes e h
              · rcases List.mem_singleton.mp h with rfl
                exact heq)
          rw [hstep]
          by_cases hM : minFold dist m E = m
          · have hsome : ecmpEntriesAt dist (minFold dist m E) p =
                some { next_hop := p.1, total_cost := dn + w p.2 } := by
              simp only [ecmpEntriesAt, hdp, Option.map_some']
              rw [if_pos (by omega)]
            rw [filterMap_cons_some hsome]
            rw [if_pos hM, if_pos hM]
            simp
          · have hnone : ecmpEntriesAt dist (minFold dist m E) p = none := by
              simp only [ecmpEntriesAt, hdp, Option.map_some']
              rw [if_neg (by omega)]
            rw [filterMap_cons_none hnone]
            rw [if_neg hM, if_neg hM]
        · have h1 : mpStep dist (es, m) p = (es, m) := by
            simp only [mpStep, hdp]
            rw [if_neg hlt, if_neg heq]
          have hmin : min m (dn + w p.2) = m := by omega
          rw [h1, hmin]
          have hM := minFold_le_init dist E m
          have hnone : ecmpEntriesAt dist (minFold dist m E) p = none := by
            simp only [ecmpEntriesAt, hdp, Option.map_some']
            rw [if_neg (by omega)]
          rw [filterMap_cons_none hnone]
          exact ih es m hes

lemma compute_multi_path_entries_spec (f : Fabric) (dist : RouterId → Option Nat)
    (r : RouterId) : compute_multi_path_entries f dist r = ecmpEntriesSpec f dist r := by
  show ((edgesOf f r).foldl (mpStep dist) ([], 4294967295)).1 = _
  rw [mp_fold_fst dist (edgesOf f r) [] 4294967295
    (by intro e he; exact absurd he (List.not_mem_nil e))]
  rw [ite_self]
  rfl

/-- C1: the ECMP table entry list for each destination holds exactly
the neighbors achieving the minimum cost, but `tun_a` is computed from
the distances from ingress `b` and `tun_b` from ingress `a`; in
scenario 5 the two equal-cost next hops therefore appear in the
`tun_a` list at `Rx0y0`, while its `tun_b` list holds only `Rx0y1`. -/
theorem C1_ecmp_entries (f : Fabric) (a b r : RouterId) (hr : r ∈ f.routers) :
    (compute_multi_path_routing f a b r =
      some { tun_a := ecmpEntriesSpec f (dijkstraDist f b) r,
             tun_b := ecmpEntriesSpec f (dijkstraDist f a) r }) ∧
    compute_multi_path_routing s5 "Rx0y0" "Rx0y2" "Rx0y0" =
      some { tun_a := [{ next_hop := "Rx0y2", total_cost := 10 },
                       { next_hop := "Rx0y1", total_cost := 10 }],
             tun_b := [{ next_hop := "Rx0y1", total_cost := 10 }] } := by
  constructor
  · simp only [compute_multi_path_routing]
    rw [if_pos hr, compute_multi_path_entries_spec, compute_multi_path_entries_spec]
  · rfl

/-- Witness for C1 at scenario 5, router `Rx0y0`. -/
theorem C1_ecmp_entries_witness :
    (compute_multi_path_routing s5 "Rx0y0" "Rx0y2" "Rx0y0" =
      some { tun_a := ecmpEntriesSpec s5 (dijkstraDist s5 "Rx0y2") "Rx0y0",
             tun_b := ecmpEntriesSpec s5 (dijkstraDist s5 "Rx0y0") "Rx0y0" }) ∧
    compute_multi_path_routing s5 "Rx0y0" "Rx0y2" "Rx0y0" =
      some { tun_a := [{ next_hop := "Rx0y2", total_cost := 10 },
                       { next_hop := "Rx0y1", total_cost := 10 }],
             tun_b := [{ next_hop := "Rx0y1", total_cost := 10 }] } :=
  C1_ecmp_entries s5 "Rx0y0" "Rx0y2" "Rx0y0" (by decide)

/-- Counterexample to the claimed instance: at `Rx0y0` in scenario 5
the `tun_b` ECMP list does not contain `Rx0y2`; only the `tun_a` list
holds both equal-cost next hops. -/
theorem C1_ecmp_counterexample :
    ∃ t, compute_multi_path_routing s5 "Rx0y0" "Rx0y2" "Rx0y0" = some t ∧
      t.tun_a = [{ next_hop := "Rx0y2", total_cost := 10 },
                 { next_hop := "Rx0y1", total_cost := 10 }] ∧
      t.tun_b = [{ next_hop := "Rx0y1", total_cost := 10 }] ∧
      ¬ ∃ e ∈ t.tun_b, e.next_hop = "Rx0y2" :=
  ⟨{ tun_a := [{ next_hop := "Rx0y2", total_cost := 10 },
               { next_hop := "Rx0y1", total_cost := 10 }],
     tun_b := [{ next_hop := "Rx0y1", total_cost := 10 }] },
    rfl, rfl, rfl, by decide⟩

lemma simulate_link_eq (stream : Nat → ℚ) (cfg : LinkConfig) (idx len : Nat)
    (st : ProcState) :
    simulate_link stream cfg idx len st =
      (match cfg.mtu with
        | some mtu =>
          if len > mtu then (SimResult.mtuExceeded len mtu, bumpCounter st idx)
          else
            ((if stream st.cursor < cfg.loss_percent then SimResult.packetLost
              else SimResult.ok),
              advanceCursor (bumpCounter st idx) (if cfg.jitter_ms > 0 then 2 else 1))
        | none =>
          ((if stream st.cursor < cfg.loss_percent then SimResult.packetLost
            else SimResult.ok),
            advanceCursor (bumpCounter st idx) (if cfg.jitter_ms > 0 then 2 else 1))) := by
  cases hmtu : cfg.mtu <;> simp only [simulate_link, hmtu] <;> split_ifs <;> rfl

lemma bumpCounter_self (st : ProcState) (idx : Nat) :
    (bumpCounter st idx).counters idx = st.counters idx + 1 := by
  simp [bumpCounter]

lemma bumpCounter_other (st : ProcState) (idx j : Nat) (h : j ≠ idx) :
    (bumpCounter st idx).counters j = st.counters j := by
  simp [bumpCounter, if_neg h]

/-- C6: every `simulate_link` call bumps exactly the traversed link's
counter by 1 whatever the outcome; `MtuExceeded` is returned iff the
MTU is set and strictly exceeded (a packet of exactly MTU size
passes); and the MTU check precedes the RNG, so a failing packet
consumes no draw while any other packet consumes the loss draw plus
a jitter draw exactly when `jitter_ms > 0`. -/
theorem C6_simulate_link (stream : Nat → ℚ) (cfg : LinkConfig) (idx len : Nat)
    (st : ProcState) :
    ((simulate_link stream cfg idx len st).2.counters idx = st.counters idx + 1) ∧
    (∀ j, j ≠ idx → (simulate_link stream cfg idx len st).2.counters j = st.counters j) ∧
    ((∃ m, cfg.mtu = some m ∧ m < len) ↔
      (∃ m, (simulate_link stream cfg idx len st).1 = SimResult.mtuExceeded len m)) ∧
    (∀ ps m, (simulate_link stream cfg idx len st).1 = SimResult.mtuExceeded ps m →
      ps = len ∧ cfg.mtu = some m ∧ m < len) ∧
    ((∃ m, cfg.mtu = some m ∧ m < len) →
      (simulate_link stream cfg idx len st).2.cursor = st.cursor) ∧
    (¬ (∃ m, cfg.mtu = some m ∧ m < len) →
      (simulate_link stream cfg idx len st).2.cursor =
        st.cursor + (if cfg.jitter_ms > 0 then 2 else 1)) := by
  have heq := simulate_link_eq stream cfg idx len st
  cases hmtu : cfg.mtu with
  | none =>
    simp only [hmtu] at heq
    rw [heq]
    refine ⟨?_, ?_, ?_, ?_, ?_, ?_⟩
    · show (advanceCursor (bumpCounter st idx) _).counters idx = _
      simp [advanceCursor, bumpCounter]
    · intro j hj
      show (advanceCursor (bumpCounter st idx) _).counters j = _
      simp [advanceCursor, bumpCounter, if_neg hj]
    · constructor
      · rintro ⟨m, hm, _⟩
        exact absurd hm (Option.noConfusion)
      · rintro ⟨m, hm⟩
        simp only [] at hm
        split_ifs at hm <;> exact absurd hm (SimResult.noConfusion)
    · intro ps m hm
      simp only [] at hm
      split_ifs at hm <;> exact absurd hm (SimResult.noConfusion)
    · rintro ⟨m, hm, _⟩
      exact absurd hm (Option.noConfusion)
    · intro _
      show (advanceCursor (bumpCounter st idx) _).cursor = _
      simp [advanceCursor, bumpCounter]
  | some mtu =>
    simp only [hmtu] at heq
    by_cases hlen : len > mtu
    · rw [if_pos hlen] at heq
      rw [heq]
      refine ⟨bumpCounter_self st idx, fun j hj => bumpCounter_other st idx j hj,
        ?_, ?_, ?_, ?_⟩
      · exact ⟨fun _ => ⟨mtu, rfl⟩, fun _ => ⟨mtu, rfl, hlen⟩⟩
      · intro ps m hm
        obtain ⟨h1, h2⟩ := SimResult.mtuExceeded.inj hm
        refine ⟨h1.symm, ?_, ?_⟩
        · rw [h2]
        · omega
      · intro _; rfl
      · intro hno
        exact absurd ⟨mtu, rfl, hlen⟩ hno
    · rw [if_neg hlen] at heq
      rw [heq]
      refine ⟨?_, ?_, ?_, ?_, ?_, ?_⟩
      · show (advanceCursor (bumpCounter st idx) _).counters idx = _
        simp [advanceCursor, bumpCounter]
      · intro j hj
        show (advanceCursor (bumpCounter st idx) _).counters j = _
        simp [advanceCursor, bumpCounter, if_neg hj]
      · constructor
        · rintro ⟨m, hm, hmlt⟩
          obtain rfl : mtu = m := by injection hm
          omega
        · rintro ⟨m, hm⟩
          simp only [] at hm
          split_ifs at hm <;> exact absurd hm (SimResult.noConfusion)
      · intro ps m hm
        simp only [] at hm
        split_ifs at hm <;> exact absurd hm (SimResult.noConfusion)
      · rintro ⟨m, hm, hmlt⟩
        obtain rfl : mtu = m := by injection hm
        omega
      · intro _
        show (advanceCursor (bumpCounter st idx) _).cursor = _
        simp [advanceCursor, bumpCounter]

lemma process_packet_arrival_step (hashFn : PacketMeta → Nat → Nat) (stream : Nat → ℚ)
    (f : Fabric) (tablesS : RouterId → Option RoutingTable) (fuel : Nat)
    (ingress : RouterId) (pkt : PacketMeta) (dest : Destination) (st : ProcState)
    (t : RoutingTable) (httl : 2 ≤ pkt.ttl) (hts : tablesS ingress = some t)
    (harr : (match dest with
      | .TunA => t.tun_a.next_hop
      | .TunB => t.tun_b.next_hop) = ingress) :
    process_packet_loop hashFn stream f tablesS (fuel + 1) ingress pkt dest st =
      (pkt, increment_received f st ingress, 1) := by
  cases dest with
  | TunA =>
    simp only [process_packet_loop, hts]
    rw [if_neg (by omega)]
    rw [if_pos harr]
  | TunB =>
    simp only [process_packet_loop, hts]
    rw [if_neg (by omega)]
    rw [if_pos harr]

lemma process_packet_multi_empty_step (hashFn : PacketMeta → Nat → Nat)
    (stream : Nat → ℚ) (f : Fabric) (tablesM : RouterId → Option MultiPathTable)
    (fuel : Nat) (ingress : RouterId) (pkt pkt2 : PacketMeta) (dest : Destination)
    (st : ProcState) (mt : MultiPathTable) (httl : 2 ≤ pkt.ttl)
    (hdec : decrement_ttl pkt = .ok pkt2) (htm : tablesM ingress = some mt)
    (hemp : (match dest with
      | .TunA => mt.tun_a
      | .TunB => mt.tun_b) = []) :
    process_packet_multi_loop hashFn stream f tablesM (fuel + 1) ingress pkt dest st =
      (pkt2, increment_received f st ingress, 1) := by
  cases dest with
  | TunA =>
    have hemp2 : mt.tun_a = [] := hemp
    simp only [process_packet_multi_loop, hdec, htm]
    rw [if_neg (by omega)]
    simp [hemp2]
  | TunB =>
    have hemp2 : mt.tun_b = [] := hemp
    simp only [process_packet_multi_loop, hdec, htm]
    rw [if_neg (by omega)]
    simp [hemp2]

/-- C2 (corrected): at a delivery point the single-path loop breaks on
the arrival sentinel before touching the TTL, returning the packet
unchanged; the multipath loop instead decrements the TTL before its
table lookup, performs no arrival check, and breaks silently on an
empty ECMP entry list (returning the decremented packet, with no
Destination-Unreachable ICMP). -/
theorem C2_loop_order (hashFn : PacketMeta → Nat → Nat) (stream : Nat → ℚ)
    (f : Fabric) (tablesS : RouterId → Option RoutingTable)
    (tablesM : RouterId → Option MultiPathTable) (ingress : RouterId)
    (pkt pkt2 : PacketMeta) (dest : Destination) (st : ProcState)
    (t : RoutingTable) (mt : MultiPathTable)
    (httl : 2 ≤ pkt.ttl) (hts : tablesS ingress = some t)
    (harr : (match dest with
      | .TunA => t.tun_a.next_hop
      | .TunB => t.tun_b.next_hop) = ingress)
    (hdec : decrement_ttl pkt = .ok pkt2) (htm : tablesM ingress = some mt)
    (hemp : (match dest with
      | .TunA => mt.tun_a
      | .TunB => mt.tun_b) = []) :
    process_packet hashFn stream f tablesS ingress pkt dest st =
      (pkt, increment_received f st ingress, 1) ∧
    process_packet_multi hashFn stream f tablesM ingress pkt dest st =
      (pkt2, increment_received f st ingress, 1) := by
  constructor
  · show process_packet_loop hashFn stream f tablesS (99 + 1) ingress pkt dest st = _
    exact process_packet_arrival_step hashFn stream f tablesS 99 ingress pkt dest st t
      httl hts harr
  · show process_packet_multi_loop hashFn stream f tablesM (99 + 1) ingress pkt dest st = _
    exact process_packet_multi_empty_step hashFn stream f tablesM 99 ingress pkt pkt2
      dest st mt httl hdec htm hemp

/-- Witness for C2 at the isolated router: the single-path loop breaks
on arrival with the TTL still 64, the multipath loop on the empty
entry list with the TTL already decremented. -/
theorem C2_loop_order_witness :
    process_packet hf0 str0 fab1 (compute_routing fab1 "Rx0y0" "Rx0y0") "Rx0y0"
        c5pkt .TunB pstate0 =
      (c5pkt, increment_received fab1 pstate0 "Rx0y0", 1) ∧
    process_packet_multi hf0 str0 fab1 (compute_multi_path_routing fab1 "Rx0y0" "Rx0y0")
        "Rx0y0" c5pkt .TunB pstate0 =
      (c2pkt2, increment_received fab1 pstate0 "Rx0y0", 1) :=
  C2_loop_order hf0 str0 fab1 (compute_routing fab1 "Rx0y0" "Rx0y0")
    (compute_multi_path_routing fab1 "Rx0y0" "Rx0y0") "Rx0y0" c5pkt c2pkt2 .TunB pstate0
    { tun_a := { next_hop := "Rx0y0", total_cost := 0 },
      tun_b := { next_hop := "Rx0y0", total_cost := 0 } }
    { tun_a := [], tun_b := [] }
    (by decide) rfl rfl rfl rfl rfl

/-- Counterexample to the claimed step equivalence: on the same input
the single-path processor returns TTL 64 (arrival before decrement),
the multipath processor TTL 63 (decrement before lookup, silent break
on the empty entry list), and neither generates ICMP. -/
theorem C2_counterexample :
    (process_packet hf0 str0 fab1 (compute_routing fab1 "Rx0y0" "Rx0y0") "Rx0y0"
        c5pkt .TunB pstate0).1.ttl = 64 ∧
    (process_packet_multi hf0 str0 fab1 (compute_multi_path_routing fab1 "Rx0y0" "Rx0y0")
        "Rx0y0" c5pkt .TunB pstate0).1.ttl = 63 ∧
    ((process_packet_multi hf0 str0 fab1 (compute_multi_path_routing fab1 "Rx0y0" "Rx0y0")
        "Rx0y0" c5pkt .TunB pstate0).2.1.stats "Rx0y0").icmp_generated = 0 :=
  ⟨rfl, rfl, rfl⟩

lemma inc_recv_recv (f : Fabric) (st : ProcState) (r x : RouterId) :
    ((increment_received f st r).stats x).packets_received =
      (st.stats x).packets_received + (if r ∈ f.routers ∧ x = r then 1 else 0) := by
  by_cases hr : r ∈ f.routers <;> by_cases hx : x = r <;>
    simp [increment_received, hr, hx]

lemma inc_recv_fwd (f : Fabric) (st : ProcState) (r x : RouterId) :
    ((increment_received f st r).stats x).packets_forwarded =
      (st.stats x).packets_forwarded := by
  by_cases hr : r ∈ f.routers <;> by_cases hx : x = r <;>
    simp [increment_received, hr, hx]

lemma inc_fwd_recv (f : Fabric) (st : ProcState) (r x : RouterId) :
    ((increment_forwarded f st r).stats x).packets_received =
      (st.stats x).packets_received := by
  by_cases hr : r ∈ f.routers <;> by_cases hx : x = r <;>
    simp [increment_forwarded, hr, hx]

lemma inc_fwd_fwd (f : Fabric) (st : ProcState) (r x : RouterId) :
    ((increment_forwarded f st r).stats x).packets_forwarded =
      (st.stats x).packets_forwarded + (if r ∈ f.routers ∧ x = r then 1 else 0) := by
  by_cases hr : r ∈ f.routers <;> by_cases hx : x = r <;>
    simp [increment_forwarded, hr, hx]

lemma inc_icmp_recv (f : Fabric) (st : ProcState) (r x : RouterId) :
    ((increment_icmp f st r).stats x).packets_received =
      (st.stats x).packets_received := by
  by_cases hr : r ∈ f.routers <;> by_cases hx : x = r <;>
    simp [increment_icmp, hr, hx]

lemma inc_icmp_fwd (f : Fabric) (st : ProcState) (r x : RouterId) :
    ((increment_icmp f st r).stats x).packets_forwarded =
      (st.stats x).packets_forwarded := by
  by_cases hr : r ∈ f.routers <;> by_cases hx : x = r <;>
    simp [increment_icmp, hr, hx]

lemma inc_lost_recv (f : Fabric) (st : ProcState) (r x : RouterId) :
    ((increment_lost f st r).stats x).packets_received =
      (st.stats x).packets_received := by
  by_cases hr : r ∈ f.routers <;> by_cases hx : x = r <;>
    simp [increment_lost, hr, hx]

lemma inc_lost_fwd (f : Fabric) (st : ProcState) (r x : RouterId) :
    ((increment_lost f st r).stats x).packets_forwarded =
      (st.stats x).packets_forwarded := by
  by_cases hr : r ∈ f.routers <;> by_cases hx : x = r <;>
    simp [increment_lost, hr, hx]

lemma simulate_link_stats (stream : Nat → ℚ) (cfg : LinkConfig) (idx len : Nat)
    (st : ProcState) : (simulate_link stream cfg idx len st).2.stats = st.stats := by
  rw [simulate_link_eq]
  cases cfg.mtu <;> simp only [] <;> split_ifs <;> rfl

lemma sum_map_bump (g g' : RouterId → Nat) :
    ∀ (l : List RouterId), l.Nodup → ∀ r ∈ l,
      (∀ x ∈ l, g' x = g x + (if x = r then 1 else 0)) →
      (l.map g').sum = (l.map g).sum + 1 := by
  intro l
  induction l with
  | nil => intro _ r hr; exact absurd hr (List.not_mem_nil r)
  | cons a l ih =>
    intro hnd r hr hval
    rw [List.nodup_cons] at hnd
    rcases List.mem_cons.mp hr with rfl | hrl
    · have ha : g' r = g r + 1 := by
        have := hval r (List.mem_cons_self r l)
        rwa [if_pos rfl] at this
      have hrest : l.map g' = l.map g := by
        apply List.map_congr_left
        intro x hx
        have := hval x (List.mem_cons_of_mem r hx)
        have hxa : x ≠ r := fun h => hnd.1 (h ▸ hx)
        rwa [if_neg hxa, Nat.add_zero] at this
      simp only [List.map_cons, List.sum_cons, ha, hrest]
      omega
    · have ha : g' a = g a := by
        have := hval a (List.mem_cons_self a l)
        have har : a ≠ r := fun h => hnd.1 (h ▸ hrl)
        rwa [if_neg har, Nat.add_zero] at this
      have := ih hnd.2 r hrl (fun x hx => hval x (List.mem_cons_of_mem a hx))
      simp only [List.map_cons, List.sum_cons, ha, this]
      omega

lemma recvSum_inc_recv (f : Fabric) (hnd : f.routers.Nodup) (st : ProcState)
    (r : RouterId) (hr : r ∈ f.routers) :
    recvSum f (increment_received f st r) = recvSum f st + 1 := by
  apply sum_map_bump (fun x => (st.stats x).packets_received)
    (fun x => ((increment_received f st r).stats x).packets_received) f.routers hnd r hr
  intro x hx
  rw [inc_recv_recv]
  by_cases hxr : x = r
  · rw [if_pos ⟨hr, hxr⟩, if_pos hxr]
  · rw [if_neg (fun h => hxr h.2), if_neg hxr]

lemma recvSum_congr (f : Fabric) (st1 st2 : ProcState)
    (h : ∀ x, (st2.stats x).packets_received = (st1.stats x).packets_received) :
    recvSum f st2 = recvSum f st1 := by
  unfold recvSum
  congr 1
  exact List.map_congr_left (fun x _ => h x)

lemma mem_enumFrom_snd {α : Type} :
    ∀ (l : List α) (n : Nat) (p : Nat × α), p ∈ l.enumFrom n → p.2 ∈ l := by
  intro l
  induction l with
  | nil => intro n p hp; exact absurd hp (List.not_mem_nil p)
  | cons a l ih =>
    intro n p hp
    rcases List.mem_cons.mp hp with rfl | h
    · exact List.mem_cons_self a l
    · exact List.mem_cons_of_mem a (ih (n + 1) p h)

lemma incident_links_mem {f : Fabric} {r : RouterId} {p : Nat × Link}
    (h : p ∈ incident_links f r) : p.2 ∈ f.links := by
  unfold incident_links at h
  have h1 := (List.mem_filter.mp h).1
  have h2 := List.mem_reverse.mp h1
  exact mem_enumFrom_snd f.links 0 p h2

lemma get?_zero_mem {α : Type} {l : List α} {x : α} (h : l.get? 0 = some x) : x ∈ l := by
  cases l with
  | nil => exact absurd h (Option.noConfusion)
  | cons a l =>
    obtain rfl : a = x := by injection h
    exact List.mem_cons_self a l

lemma get?_mem' {α : Type} : ∀ {l : List α} {n : Nat} {x : α}, l.get? n = some x → x ∈ l := by
  intro l
  induction l with
  | nil => intro n x h; exact absurd h (Option.noConfusion)
  | cons a l ih =>
    intro n x h
    cases n with
    | zero =>
      obtain rfl : a = x := by injection h
      exact List.mem_cons_self a l
    | succ m => exact List.mem_cons_of_mem a (ih h)

lemma pick_mem {α : Type} (links cand : List α) (hcand : ∀ x ∈ cand, x ∈ links)
    (lb : List α) (hlb : ∀ x ∈ lb, x ∈ cand) (k : Nat) (l : α)
    (h : (if lb.isEmpty then cand.get? 0 else lb.get? k) = some l) :
    l ∈ links := by
  split_ifs at h
  · exact hcand l (get?_mem' h)
  · exact hcand l (hlb l (get?_mem' h))

lemma ite_links_sub {α : Type} (links c0 : List α) (hc0 : ∀ x ∈ c0, x ∈ links) :
    ∀ x ∈ (if c0.isEmpty then links else c0), x ∈ links := by
  intro x hx
  split_ifs at hx
  · exact hx
  · exact hc0 x hx

lemma select_egress_link_mem {hashFn : PacketMeta → Nat → Nat}
    {tables : RouterId → Option RoutingTable} {r : RouterId} {packet : PacketMeta}
    {links : List (Nat × Link)} {dest : Destination} {counters : Nat → Nat}
    {l : Nat × Link}
    (h : select_egress_link hashFn tables r packet links dest counters = some l) :
    l ∈ links := by
  unfold select_egress_link at h
  cases htr : tables r with
  | none => rw [htr] at h; exact absurd h (Option.noConfusion)
  | some t =>
    rw [htr] at h
    simp only [] at h
    refine pick_mem links _ ?_ _ ?_ _ l h
    · exact ite_links_sub links _ (fun x hx => (List.mem_filter.mp hx).1)
    · exact fun x hx => (List.mem_filter.mp hx).1

lemma snd_fst_mk {α β γ : Type} (a : α) (b : β) (c : γ) : (a, b, c).2.1 = b := rfl

lemma snd_snd_mk {α β γ : Type} (a : α) (b : β) (c : γ) : (a, b, c).2.2 = c := rfl

lemma process_packet_loop_inv (hashFn : PacketMeta → Nat → Nat) (stream : Nat → ℚ)
    (f : Fabric) (tables : RouterId → Option RoutingTable) (hwf : f.wf) :
    ∀ (fuel : Nat) (ingress : RouterId) (pkt : PacketMeta) (dest : Destination)
      (st : ProcState), ingress ∈ f.routers →
      recvSum f (process_packet_loop hashFn stream f tables fuel ingress pkt dest st).2.1 =
        recvSum f st +
          (process_packet_loop hashFn stream f tables fuel ingress pkt dest st).2.2 ∧
      ∀ x, (((process_packet_loop hashFn stream f tables fuel ingress pkt dest st).2.1.stats x).packets_forwarded +
            (st.stats x).packets_received ≤
          ((process_packet_loop hashFn stream f tables fuel ingress pkt dest st).2.1.stats x).packets_received +
            (st.stats x).packets_forwarded) := by
  intro fuel
  induction fuel with
  | zero =>
    intro ingress pkt dest st hin
    refine ⟨by simp [process_packet_loop], ?_⟩
    intro x
    simp only [process_packet_loop, snd_fst_mk, snd_snd_mk]
    omega
  | succ k ih =>
    intro ingress pkt dest st hin
    have hnd := hwf.1
    have hrecv1 : recvSum f (increment_received f st ingress) = recvSum f st + 1 :=
      recvSum_inc_recv f hnd st ingress hin
    have hr2 := fun x => inc_recv_recv f st ingress x
    have hf2 := fun x => inc_recv_fwd f st ingress x
    simp only [process_packet_loop]
    by_cases httl : pkt.ttl ≤ 1
    · rw [if_pos httl]
      cases hp : parse (if is_ipv6 pkt = true then generate_icmpv6_error pkt 3 0
          else generate_icmp_error pkt 11 0) with
      | error e =>
        simp only [hp]
        have h2 : recvSum f (increment_icmp f (increment_received f st ingress) ingress) =
            recvSum f (increment_received f st ingress) :=
          recvSum_congr f _ _ (fun x => inc_icmp_recv f _ ingress x)
        refine ⟨by (try simp only [snd_fst_mk, snd_snd_mk]); rw [h2, hrecv1], ?_⟩
        intro x
        try simp only [snd_fst_mk, snd_snd_mk]
        have ha := inc_icmp_recv f (increment_received f st ingress) ingress x
        have hb := inc_icmp_fwd f (increment_received f st ingress) ingress x
        have hc := hr2 x
        have hd := hf2 x
        omega
      | ok q =>
        simp only [hp]
        obtain ⟨ih1, ih2⟩ := ih ingress q (opposite_destination dest)
          (increment_icmp f (increment_received f st ingress) ingress) hin
        have h2 : recvSum f (increment_icmp f (increment_received f st ingress) ingress) =
            recvSum f (increment_received f st ingress) :=
          recvSum_congr f _ _ (fun x => inc_icmp_recv f _ ingress x)
        refine ⟨by (try simp only [snd_fst_mk, snd_snd_mk]); omega, ?_⟩
        intro x
        try simp only [snd_fst_mk, snd_snd_mk]
        have hx := ih2 x
        have ha := inc_icmp_recv f (increment_received f st ingress) ingress x
        have hb := inc_icmp_fwd f (increment_received f st ingress) ingress x
        have hc := hr2 x
        have hd := hf2 x
        omega
    · rw [if_neg httl]
      cases htb : tables ingress with
      | none =>
        simp only [htb]
        cases hp : parse (if is_ipv6 pkt = true then generate_icmpv6_error pkt 3 0
            else generate_icmp_error pkt 3 0) with
        | error e =>
          simp only [hp]
          have h2 : recvSum f (increment_icmp f (increment_received f st ingress) ingress) =
              recvSum f (increment_received f st ingress) :=
            recvSum_congr f _ _ (fun x => inc_icmp_recv f _ ingress x)
          refine ⟨by (try simp only [snd_fst_mk, snd_snd_mk]); rw [h2, hrecv1], ?_⟩
          intro x
          try simp only [snd_fst_mk, snd_snd_mk]
          have ha := inc_icmp_recv f (increment_received f st ingress) ingress x
          have hb := inc_icmp_fwd f (increment_received f st ingress) ingress x
          have hc := hr2 x
          have hd := hf2 x
          omega
        | ok q =>
          simp only [hp]
          obtain ⟨ih1, ih2⟩ := ih ingress q (opposite_destination dest)
            (increment_icmp f (increment_received f st ingress) ingress) hin
          have h2 : recvSum f (increment_icmp f (increment_received f st ingress) ingress) =
              recvSum f (increment_received f st ingress) :=
            recvSum_congr f _ _ (fun x => inc_icmp_recv f _ ingress x)
          refine ⟨by (try simp only [snd_fst_mk, snd_snd_mk]); omega, ?_⟩
          intro x
          try simp only [snd_fst_mk, snd_snd_mk]
          have hx := ih2 x
          have ha := inc_icmp_recv f (increment_received f st ingress) ingress x
          have hb := inc_icmp_fwd f (increment_received f st ingress) ingress x
          have hc := hr2 x
          have hd := hf2 x
          omega
      | some table =>
        simp only [htb]
        by_cases harr : (match dest with
          | Destination.TunA => table.tun_a.next_hop
          | Destination.TunB => table.tun_b.next_hop) = ingress
        · rw [if_pos harr]
          refine ⟨by (try simp only [snd_fst_mk, snd_snd_mk]); rw [hrecv1], ?_⟩
          intro x
          try simp only [snd_fst_mk, snd_snd_mk]
          have hc := hr2 x
          have hd := hf2 x
          omega
        · rw [if_neg harr]
          cases hdec : decrement_ttl pkt with
          | error e =>
            simp only [hdec]
            refine ⟨by (try simp only [snd_fst_mk, snd_snd_mk]); rw [hrecv1], ?_⟩
            intro x
            try simp only [snd_fst_mk, snd_snd_mk]
            have hc := hr2 x
            have hd := hf2 x
            omega
          | ok pkt2 =>
            simp only [hdec]
            cases hsel : select_egress_link hashFn tables ingress pkt2
                (incident_links f ingress) dest
                (increment_received f st ingress).counters with
            | none =>
              simp only [hsel]
              refine ⟨by (try simp only [snd_fst_mk, snd_snd_mk]); rw [hrecv1], ?_⟩
              intro x
              try simp only [snd_fst_mk, snd_snd_mk]
              have hc := hr2 x
              have hd := hf2 x
              omega
            | some p =>
              obtain ⟨li, link⟩ := p
              simp only [hsel]
              rcases hsim : simulate_link stream link.cfg li pkt2.raw.length
                (increment_received f st ingress) with ⟨res, stS⟩
              try simp only [hsim]
              have hstats : stS.stats = (increment_received f st ingress).stats := by
                have h0 := simulate_link_stats stream link.cfg li pkt2.raw.length
                  (increment_received f st ingress)
                rw [hsim] at h0
                exact h0
              have hrecvS : recvSum f stS = recvSum f st + 1 := by
                rw [recvSum_congr f (increment_received f st ingress) stS
                  (fun x => by rw [hstats]), hrecv1]
              have hrS := fun x => show (stS.stats x).packets_received =
                  (st.stats x).packets_received +
                    (if ingress ∈ f.routers ∧ x = ingress then 1 else 0) by
                rw [hstats]; exact inc_recv_recv f st ingress x
              have hfS := fun x => show (stS.stats x).packets_forwarded =
                  (st.stats x).packets_forwarded by
                rw [hstats]; exact inc_recv_fwd f st ingress x
              cases res with
              | mtuExceeded ps mtu =>
                cases hp : parse (if is_ipv6 pkt2 = true then generate_icmpv6_error pkt2 2 0
                    else generate_fragmentation_needed pkt2 mtu) with
                | error e =>
                  simp only [hp]
                  have h2 : recvSum f (increment_icmp f stS ingress) = recvSum f stS :=
                    recvSum_congr f _ _ (fun x => inc_icmp_recv f _ ingress x)
                  refine ⟨by (try simp only [snd_fst_mk, snd_snd_mk]); rw [h2, hrecvS], ?_⟩
                  intro x
                  try simp only [snd_fst_mk, snd_snd_mk]
                  have ha := inc_icmp_recv f stS ingress x
                  have hb := inc_icmp_fwd f stS ingress x
                  have hc := hrS x
                  have hd := hfS x
                  omega
                | ok q =>
                  simp only [hp]
                  obtain ⟨ih1, ih2⟩ := ih ingress q (opposite_destination dest)
                    (increment_icmp f stS ingress) hin
                  have h2 : recvSum f (increment_icmp f stS ingress) = recvSum f stS :=
                    recvSum_congr f _ _ (fun x => inc_icmp_recv f _ ingress x)
                  refine ⟨by (try simp only [snd_fst_mk, snd_snd_mk]); omega, ?_⟩
                  intro x
                  try simp only [snd_fst_mk, snd_snd_mk]
                  have hx := ih2 x
                  have ha := inc_icmp_recv f stS ingress x
                  have hb := inc_icmp_fwd f stS ingress x
                  have hc := hrS x
                  have hd := hfS x
                  omega
              | packetLost =>
                have h2 : recvSum f (increment_lost f stS ingress) = recvSum f stS :=
                  recvSum_congr f _ _ (fun x => inc_lost_recv f _ ingress x)
                refine ⟨by (try simp only [snd_fst_mk, snd_snd_mk]); rw [h2, hrecvS], ?_⟩
                intro x
                try simp only [snd_fst_mk, snd_snd_mk]
                have ha := inc_lost_recv f stS ingress x
                have hb := inc_lost_fwd f stS ingress x
                have hc := hrS x
                have hd := hfS x
                omega
              | ok =>
                have hlink : link ∈ f.links := incident_links_mem (select_egress_link_mem hsel)
                have hin2 : (if link.id.a = ingress then link.id.b else link.id.a) ∈ f.routers := by
                  rcases hwf.2 link hlink with ⟨ha, hb⟩
                  split_ifs <;> assumption
                obtain ⟨ih1, ih2⟩ := ih (if link.id.a = ingress then link.id.b else link.id.a)
                  pkt2 dest (increment_forwarded f stS ingress) hin2
                have h2 : recvSum f (increment_forwarded f stS ingress) = recvSum f stS :=
                  recvSum_congr f _ _ (fun x => inc_fwd_recv f _ ingress x)
                refine ⟨by (try simp only [snd_fst_mk, snd_snd_mk]); omega, ?_⟩
                intro x
                try simp only [snd_fst_mk, snd_snd_mk]
                have hx := ih2 x
                have ha := inc_fwd_recv f stS ingress x
                have hb := inc_fwd_fwd f stS ingress x
                have hc := hrS x
                have hd := hfS x
                omega

lemma choose_candidate_link_mem {hashFn : PacketMeta → Nat → Nat} {packet : PacketMeta}
    {entries : List RouteEntry} {ilinks : List (Nat × Link)} {counters : Nat → Nat}
    {l : Nat × Link}
    (h : choose_candidate_link hashFn packet entries ilinks counters = some l) :
    l ∈ ilinks := by
  unfold choose_candidate_link at h
  simp only [] at h
  refine pick_mem ilinks _ ?_ _ ?_ _ l h
  · exact ite_links_sub ilinks _ (fun x hx => (List.mem_filter.mp hx).1)
  · exact fun x hx => (List.mem_filter.mp hx).1

lemma process_packet_multi_loop_inv (hashFn : PacketMeta → Nat → Nat) (stream : Nat → ℚ)
    (f : Fabric) (tables : RouterId → Option MultiPathTable) (hwf : f.wf) :
    ∀ (fuel : Nat) (ingress : RouterId) (pkt : PacketMeta) (dest : Destination)
      (st : ProcState), ingress ∈ f.routers →
      recvSum f (process_packet_multi_loop hashFn stream f tables fuel ingress pkt dest st).2.1 =
        recvSum f st +
          (process_packet_multi_loop hashFn stream f tables fuel ingress pkt dest st).2.2 ∧
      ∀ x, (((process_packet_multi_loop hashFn stream f tables fuel ingress pkt dest st).2.1.stats x).packets_forwarded +
            (st.stats x).packets_received ≤
          ((process_packet_multi_loop hashFn stream f tables fuel ingress pkt dest st).2.1.stats x).packets_received +
            (st.stats x).packets_forwarded) := by
  intro fuel
  induction fuel with
  | zero =>
    intro ingress pkt dest st hin
    refine ⟨by simp [process_packet_multi_loop], ?_⟩
    intro x
    simp only [process_packet_multi_loop, snd_fst_mk, snd_snd_mk]
    omega
  | succ k ih =>
    intro ingress pkt dest st hin
    have hnd := hwf.1
    have hrecv1 : recvSum f (increment_received f st ingress) = recvSum f st + 1 :=
      recvSum_inc_recv f hnd st ingress hin
    have hr2 := fun x => inc_recv_recv f st ingress x
    have hf2 := fun x => inc_recv_fwd f st ingress x
    simp only [process_packet_multi_loop]
    by_cases httl : pkt.ttl ≤ 1
    · rw [if_pos httl]
      cases hp : parse (if is_ipv6 pkt = true then generate_icmpv6_error pkt 3 0
          else generate_icmp_error pkt 11 0) with
      | error e =>
        simp only [hp]
        have h2 : recvSum f (increment_icmp f (increment_received f st ingress) ingress) =
            recvSum f (increment_received f st ingress) :=
          recvSum_congr f _ _ (fun x => inc_icmp_recv f _ ingress x)
        refine ⟨by (try simp only [snd_fst_mk, snd_snd_mk]); rw [h2, hrecv1], ?_⟩
        intro x
        try simp only [snd_fst_mk, snd_snd_mk]
        have ha := inc_icmp_recv f (increment_received f st ingress) ingress x
        have hb := inc_icmp_fwd f (increment_received f st ingress) ingress x
        have hc := hr2 x
        have hd := hf2 x
        omega
      | ok q =>
        simp only [hp]
        obtain ⟨ih1, ih2⟩ := ih ingress q (opposite_destination dest)
          (increment_icmp f (increment_received f st ingress) ingress) hin
        have h2 : recvSum f (increment_icmp f (increment_received f st ingress) ingress) =
            recvSum f (increment_received f st ingress) :=
          recvSum_congr f _ _ (fun x => inc_icmp_recv f _ ingress x)
        refine ⟨by (try simp only [snd_fst_mk, snd_snd_mk]); omega, ?_⟩
        intro x
        try simp only [snd_fst_mk, snd_snd_mk]
        have hx := ih2 x
        have ha := inc_icmp_recv f (increment_received f st ingress) ingress x
        have hb := inc_icmp_fwd f (increment_received f st ingress) ingress x
        have hc := hr2 x
        have hd := hf2 x
        omega
    · rw [if_neg httl]
      cases hdec : decrement_ttl pkt with
      | error e =>
        simp only [hdec]
        refine ⟨by (try simp only [snd_fst_mk, snd_snd_mk]); rw [hrecv1], ?_⟩
        intro x
        try simp only [snd_fst_mk, snd_snd_mk]
        have hc := hr2 x
        have hd := hf2 x
        omega
      | ok pkt2 =>
        simp only [hdec]
        cases htb : tables ingress with
        | none =>
          simp only [htb]
          cases hp : parse (if is_ipv6 pkt2 = true then generate_icmpv6_error pkt2 3 0
              else generate_icmp_error pkt2 3 0) with
          | error e =>
            simp only [hp]
            have h2 : recvSum f (increment_icmp f (increment_received f st ingress) ingress) =
                recvSum f (increment_received f st ingress) :=
              recvSum_congr f _ _ (fun x => inc_icmp_recv f _ ingress x)
            refine ⟨by (try simp only [snd_fst_mk, snd_snd_mk]); rw [h2, hrecv1], ?_⟩
            intro x
            try simp only [snd_fst_mk, snd_snd_mk]
            have ha := inc_icmp_recv f (increment_received f st ingress) ingress x
            have hb := inc_icmp_fwd f (increment_received f st ingress) ingress x
            have hc := hr2 x
            have hd := hf2 x
            omega
          | ok q =>
            simp only [hp]
            obtain ⟨ih1, ih2⟩ := ih ingress q (opposite_destination dest)
              (increment_icmp f (increment_received f st ingress) ingress) hin
            have h2 : recvSum f (increment_icmp f (increment_received f st ingress) ingress) =
                recvSum f (increment_received f st ingress) :=
              recvSum_congr f _ _ (fun x => inc_icmp_recv f _ ingress x)
            refine ⟨by (try simp only [snd_fst_mk, snd_snd_mk]); omega, ?_⟩
            intro x
            try simp only [snd_fst_mk, snd_snd_mk]
            have hx := ih2 x
            have ha := inc_icmp_recv f (increment_received f st ingress) ingress x
            have hb := inc_icmp_fwd f (increment_received f st ingress) ingress x
            have hc := hr2 x
            have hd := hf2 x
            omega
        | some mtable =>
          simp only [htb]
          cases dest with
          | TunA =>
            by_cases hemp : (mtable.tun_a).isEmpty = true
            · rw [if_pos hemp]
              refine ⟨by (try simp only [snd_fst_mk, snd_snd_mk]); rw [hrecv1], ?_⟩
              intro x
              try simp only [snd_fst_mk, snd_snd_mk]
              have hc := hr2 x
              have hd := hf2 x
              omega
            · rw [if_neg hemp]
              cases hch : choose_candidate_link hashFn pkt2 mtable.tun_a
                  (incident_links f ingress)
                  (increment_received f st ingress).counters with
              | none =>
                try simp only [hch]
                refine ⟨by (try simp only [snd_fst_mk, snd_snd_mk]); rw [hrecv1], ?_⟩
                intro x
                try simp only [snd_fst_mk, snd_snd_mk]
                have hc := hr2 x
                have hd := hf2 x
                omega
              | some p =>
                obtain ⟨li, link⟩ := p
                try simp only [hch]
                rcases hsim : simulate_link stream link.cfg li pkt2.raw.length
                  (increment_received f st ingress) with ⟨res, stS⟩
                try simp only [hsim]
                have hstats : stS.stats = (increment_received f st ingress).stats := by
                  have h0 := simulate_link_stats stream link.cfg li pkt2.raw.length
                    (increment_received f st ingress)
                  rw [hsim] at h0
                  exact h0
                have hrecvS : recvSum f stS = recvSum f st + 1 := by
                  rw [recvSum_congr f (increment_received f st ingress) stS
                    (fun x => by rw [hstats]), hrecv1]
                have hrS := fun x => show (stS.stats x).packets_received =
                    (st.stats x).packets_received +
                      (if ingress ∈ f.routers ∧ x = ingress then 1 else 0) by
                  rw [hstats]; exact inc_recv_recv f st ingress x
                have hfS := fun x => show (stS.stats x).packets_forwarded =
                    (st.stats x).packets_forwarded by
                  rw [hstats]; exact inc_recv_fwd f st ingress x
                cases res with
                | mtuExceeded ps mtu =>
                  cases hp : parse (if is_ipv6 pkt2 = true then generate_icmpv6_error pkt2 2 0
                      else generate_fragmentation_needed pkt2 mtu) with
                  | error e =>
                    simp only [hp]
                    have h2 : recvSum f (increment_icmp f stS ingress) = recvSum f stS :=
                      recvSum_congr f _ _ (fun x => inc_icmp_recv f _ ingress x)
                    refine ⟨by (try simp only [snd_fst_mk, snd_snd_mk]); rw [h2, hrecvS], ?_⟩
                    intro x
                    try simp only [snd_fst_mk, snd_snd_mk]
                    have ha := inc_icmp_recv f stS ingress x
                    have hb := inc_icmp_fwd f stS ingress x
                    have hc := hrS x
                    have hd := hfS x
                    omega
                  | ok q =>
                    simp only [hp]
                    obtain ⟨ih1, ih2⟩ := ih ingress q (opposite_destination Destination.TunA)
                      (increment_icmp f stS ingress) hin
                    have h2 : recvSum f (increment_icmp f stS ingress) = recvSum f stS :=
                      recvSum_congr f _ _ (fun x => inc_icmp_recv f _ ingress x)
                    refine ⟨by (try simp only [snd_fst_mk, snd_snd_mk]); omega, ?_⟩
                    intro x
                    try simp only [snd_fst_mk, snd_snd_mk]
                    have hx := ih2 x
                    have ha := inc_icmp_recv f stS ingress x
                    have hb := inc_icmp_fwd f stS ingress x
                    have hc := hrS x
                    have hd := hfS x
                    omega
                | packetLost =>
                  have h2 : recvSum f (increment_lost f stS ingress) = recvSum f stS :=
                    recvSum_congr f _ _ (fun x => inc_lost_recv f _ ingress x)
                  refine ⟨by (try simp only [snd_fst_mk, snd_snd_mk]); rw [h2, hrecvS], ?_⟩
                  intro x
                  try simp only [snd_fst_mk, snd_snd_mk]
                  have ha := inc_lost_recv f stS ingress x
                  have hb := inc_lost_fwd f stS ingress x
                  have hc := hrS x
                  have hd := hfS x
                  omega
                | ok =>
                  have hlink : link ∈ f.links :=
                    incident_links_mem (choose_candidate_link_mem hch)
                  have hin2 : (if link.id.a = ingress then link.id.b else link.id.a) ∈ f.routers := by
                    rcases hwf.2 link hlink with ⟨ha, hb⟩
                    split_ifs <;> assumption
                  obtain ⟨ih1, ih2⟩ := ih (if link.id.a = ingress then link.id.b else link.id.a)
                    pkt2 Destination.TunA (increment_forwarded f stS ingress) hin2
                  have h2 : recvSum f (increment_forwarded f stS ingress) = recvSum f stS :=
                    recvSum_congr f _ _ (fun x => inc_fwd_recv f _ ingress x)
                  refine ⟨by (try simp only [snd_fst_mk, snd_snd_mk]); omega, ?_⟩
                  intro x
                  try simp only [snd_fst_mk, snd_snd_mk]
                  have hx := ih2 x
                  have ha := inc_fwd_recv f stS ingress x
                  have hb := inc_fwd_fwd f stS ingress x
                  have hc := hrS x
                  have hd := hfS x
                  omega
          | TunB =>
            by_cases hemp : (mtable.tun_b).isEmpty = true
            · rw [if_pos hemp]
              refine ⟨by (try simp only [snd_fst_mk, snd_snd_mk]); rw [hrecv1], ?_⟩
              intro x
              try simp only [snd_fst_mk, snd_snd_mk]
              have hc := hr2 x
              have hd := hf2 x
              omega
            · rw [if_neg hemp]
              cases hch : choose_candidate_link hashFn pkt2 mtable.tun_b
                  (incident_links f ingress)
                  (increment_received f st ingress).counters with
              | none =>
                try simp only [hch]
                refine ⟨by (try simp only [snd_fst_mk, snd_snd_mk]); rw [hrecv1], ?_⟩
                intro x
                try simp only [snd_fst_mk, snd_snd_mk]
                have hc := hr2 x
                have hd := hf2 x
                omega
              | some p =>
                obtain ⟨li, link⟩ := p
                try simp only [hch]
                rcases hsim : simulate_link stream link.cfg li pkt2.raw.length
                  (increment_received f st ingress) with ⟨res, stS⟩
                try simp only [hsim]
                have hstats : stS.stats = (increment_received f st ingress).stats := by
                  have h0 := simulate_link_stats stream link.cfg li pkt2.raw.length
                    (increment_received f st ingress)
                  rw [hsim] at h0
                  exact h0
                have hrecvS : recvSum f stS = recvSum f st + 1 := by
                  rw [recvSum_congr f (increment_received f st ingress) stS
                    (fun x => by rw [hstats]), hrecv1]
                have hrS := fun x => show (stS.stats x).packets_received =
                    (st.stats x).packets_received +
                      (if ingress ∈ f.routers ∧ x = ingress then 1 else 0) by
                  rw [hstats]; exact inc_recv_recv f st ingress x
                have hfS := fun x => show (stS.stats x).packets_forwarded =
                    (st.stats x).packets_forwarded by
                  rw [hstats]; exact inc_recv_fwd f st ingress x
                cases res with
                | mtuExceeded ps mtu =>
                  cases hp : parse (if is_ipv6 pkt2 = true then generate_icmpv6_error pkt2 2 0
                      else generate_fragmentation_needed pkt2 mtu) with
                  | error e =>
                    simp only [hp]
                    have h2 : recvSum f (increment_icmp f stS ingress) = recvSum f stS :=
                      recvSum_congr f _ _ (fun x => inc_icmp_recv f _ ingress x)
                    refine ⟨by (try simp only [snd_fst_mk, snd_snd_mk]); rw [h2, hrecvS], ?_⟩
                    intro x
                    try simp only [snd_fst_mk, snd_snd_mk]
                    have ha := inc_icmp_recv f stS ingress x
                    have hb := inc_icmp_fwd f stS ingress x
                    have hc := hrS x
                    have hd := hfS x
                    omega
                  | ok q =>
                    simp only [hp]
                    obtain ⟨ih1, ih2⟩ := ih ingress q (opposite_destination Destination.TunB)
                      (increment_icmp f stS ingress) hin
                    have h2 : recvSum f (increment_icmp f stS ingress) = recvSum f stS :=
                      recvSum_congr f _ _ (fun x => inc_icmp_recv f _ ingress x)
                    refine ⟨by (try simp only [snd_fst_mk, snd_snd_mk]); omega, ?_⟩
                    intro x
                    try simp only [snd_fst_mk, snd_snd_mk]
                    have hx := ih2 x
                    have ha := inc_icmp_recv f stS ingress x
                    have hb := inc_icmp_fwd f stS ingress x
                    have hc := hrS x
                    have hd := hfS x
                    omega
                | packetLost =>
                  have h2 : recvSum f (increment_lost f stS ingress) = recvSum f stS :=
                    recvSum_congr f _ _ (fun x => inc_lost_recv f _ ingress x)
                  refine ⟨by (try simp only [snd_fst_mk, snd_snd_mk]); rw [h2, hrecvS], ?_⟩
                  intro x
                  try simp only [snd_fst_mk, snd_snd_mk]
                  have ha := inc_lost_recv f stS ingress x
                  have hb := inc_lost_fwd f stS ingress x
                  have hc := hrS x
                  have hd := hfS x
                  omega
                | ok =>
                  have hlink : link ∈ f.links :=
                    incident_links_mem (choose_candidate_link_mem hch)
                  have hin2 : (if link.id.a = ingress then link.id.b else link.id.a) ∈ f.routers := by
                    rcases hwf.2 link hlink with ⟨ha, hb⟩
                    split_ifs <;> assumption
                  obtain ⟨ih1, ih2⟩ := ih (if link.id.a = ingress then link.id.b else link.id.a)
                    pkt2 Destination.TunB (increment_forwarded f stS ingress) hin2
                  have h2 : recvSum f (increment_forwarded f stS ingress) = recvSum f stS :=
                    recvSum_congr f _ _ (fun x => inc_fwd_recv f _ ingress x)
                  refine ⟨by (try simp only [snd_fst_mk, snd_snd_mk]); omega, ?_⟩
                  intro x
                  try simp only [snd_fst_mk, snd_snd_mk]
                  have hx := ih2 x
                  have ha := inc_fwd_recv f stS ingress x
                  have hb := inc_fwd_fwd f stS ingress x
                  have hc := hrS x
                  have hd := hfS x
                  omega

/-- C8: in one processor call (either variant) the total increase of
the `received` counters equals the number of loop iterations executed,
each router's `forwarded` counter increases by at most its `received`
increase, and hence from zero-initialized statistics `forwarded ≤
received` holds at every router afterwards. -/
theorem C8_stats_invariant (hashFn : PacketMeta → Nat → Nat) (stream : Nat → ℚ)
    (f : Fabric) (tablesS : RouterId → Option RoutingTable)
    (tablesM : RouterId → Option MultiPathTable) (ingress : RouterId)
    (pkt : PacketMeta) (dest : Destination) (st : ProcState)
    (hwf : f.wf) (hin : ingress ∈ f.routers) :
    (recvSum f (process_packet hashFn stream f tablesS ingress pkt dest st).2.1 =
      recvSum f st + (process_packet hashFn stream f tablesS ingress pkt dest st).2.2) ∧
    (∀ x, ((process_packet hashFn stream f tablesS ingress pkt dest st).2.1.stats x).packets_forwarded +
        (st.stats x).packets_received ≤
      ((process_packet hashFn stream f tablesS ingress pkt dest st).2.1.stats x).packets_received +
        (st.stats x).packets_forwarded) ∧
    (recvSum f (process_packet_multi hashFn stream f tablesM ingress pkt dest st).2.1 =
      recvSum f st + (process_packet_multi hashFn stream f tablesM ingress pkt dest st).2.2) ∧
    (∀ x, ((process_packet_multi hashFn stream f tablesM ingress pkt dest st).2.1.stats x).packets_forwarded +
        (st.stats x).packets_received ≤
      ((process_packet_multi hashFn stream f tablesM ingress pkt dest st).2.1.stats x).packets_received +
        (st.stats x).packets_forwarded) ∧
    (st = pstate0 →
      ∀ x, ((process_packet hashFn stream f tablesS ingress pkt dest st).2.1.stats x).packets_forwarded ≤
        ((process_packet hashFn stream f tablesS ingress pkt dest st).2.1.stats x).packets_received) ∧
    (st = pstate0 →
      ∀ x, ((process_packet_multi hashFn stream f tablesM ingress pkt dest st).2.1.stats x).packets_forwarded ≤
        ((process_packet_multi hashFn stream f tablesM ingress pkt dest st).2.1.stats x).packets_received) := by
  simp only [process_packet, process_packet_multi]
  obtain ⟨h1, h2⟩ := process_packet_loop_inv hashFn stream f tablesS hwf 100 ingress pkt dest st hin
  obtain ⟨h3, h4⟩ := process_packet_multi_loop_inv hashFn stream f tablesM hwf 100 ingress pkt dest st hin
  refine ⟨h1, h2, h3, h4, ?_, ?_⟩
  · rintro rfl x
    have hz1 : (pstate0.stats x).packets_received = 0 := rfl
    have hz2 : (pstate0.stats x).packets_forwarded = 0 := rfl
    have := h2 x
    omega
  · rintro rfl x
    have hz1 : (pstate0.stats x).packets_received = 0 := rfl
    have hz2 : (pstate0.stats x).packets_forwarded = 0 := rfl
    have := h4 x
    omega

/-- Witness for C8 at scenario 5 with both table kinds computed by the
routing engine. -/
theorem C8_stats_invariant_witness :
    (recvSum s5 (process_packet hf0 str0 s5 (compute_routing s5 "Rx0y0" "Rx0y2") "Rx0y0" c5pkt .TunB pstate0).2.1 =
      recvSum s5 pstate0 + (process_packet hf0 str0 s5 (compute_routing s5 "Rx0y0" "Rx0y2") "Rx0y0" c5pkt .TunB pstate0).2.2) ∧
    (∀ x, ((process_packet hf0 str0 s5 (compute_routing s5 "Rx0y0" "Rx0y2") "Rx0y0" c5pkt .TunB pstate0).2.1.stats x).packets_forwarded +
        (pstate0.stats x).packets_received ≤
      ((process_packet hf0 str0 s5 (compute_routing s5 "Rx0y0" "Rx0y2") "Rx0y0" c5pkt .TunB pstate0).2.1.stats x).packets_received +
        (pstate0.stats x).packets_forwarded) ∧
    (recvSum s5 (process_packet_multi hf0 str0 s5 (compute_multi_path_routing s5 "Rx0y0" "Rx0y2") "Rx0y0" c5pkt .TunB pstate0).2.1 =
      recvSum s5 pstate0 + (process_packet_multi hf0 str0 s5 (compute_multi_path_routing s5 "Rx0y0" "Rx0y2") "Rx0y0" c5pkt .TunB pstate0).2.2) ∧
    (∀ x, ((process_packet_multi hf0 str0 s5 (compute_multi_path_routing s5 "Rx0y0" "Rx0y2") "Rx0y0" c5pkt .TunB pstate0).2.1.stats x).packets_forwarded +
        (pstate0.stats x).packets_received ≤
      ((process_packet_multi hf0 str0 s5 (compute_multi_path_routing s5 "Rx0y0" "Rx0y2") "Rx0y0" c5pkt .TunB pstate0).2.1.stats x).packets_received +
        (pstate0.stats x).packets_forwarded) ∧
    (pstate0 = pstate0 →
      ∀ x, ((process_packet hf0 str0 s5 (compute_routing s5 "Rx0y0" "Rx0y2") "Rx0y0" c5pkt .TunB pstate0).2.1.stats x).packets_forwarded ≤
        ((process_packet hf0 str0 s5 (compute_routing s5 "Rx0y0" "Rx0y2") "Rx0y0" c5pkt .TunB pstate0).2.1.stats x).packets_received) ∧
    (pstate0 = pstate0 →
      ∀ x, ((process_packet_multi hf0 str0 s5 (compute_multi_path_routing s5 "Rx0y0" "Rx0y2") "Rx0y0" c5pkt .TunB pstate0).2.1.stats x).packets_forwarded ≤
        ((process_packet_multi hf0 str0 s5 (compute_multi_path_routing s5 "Rx0y0" "Rx0y2") "Rx0y0" c5pkt .TunB pstate0).2.1.stats x).packets_received) :=
  C8_stats_invariant hf0 str0 s5 (compute_routing s5 "Rx0y0" "Rx0y2")
    (compute_multi_path_routing s5 "Rx0y0" "Rx0y2") "Rx0y0" c5pkt .TunB pstate0
    s5_wf (by decide)

/-- C9 (code bug): the configured seed never reaches the RNG — the
output is invariant under the seed but depends on the entropy the
global RNG was actually initialized with, so two runs with identical
configuration and input can produce different output files.  With
all-zero draws the frame is lost on the first link (TTL byte 63 after
one hop); with all-99 draws it crosses both links (TTL byte 62). -/
theorem C9_seed_unused (s1 s2 : Option Nat) :
    (∀ (hashFn : PacketMeta → Nat → Nat) (stream : Nat → ℚ) (f : Fabric)
      (a b : RouterId) (em inj : Bool) (lines : List (List Nat)),
      packet_file_outputs hashFn stream f a b em inj s1 lines =
        packet_file_outputs hashFn stream f a b em inj s2 lines) ∧
    ((packet_file_outputs hf0 str0 c9fab "Rx0y0" "Rx0y2" false true (some 42)
        [c5data]).getD 0 []).getD 8 0 = 63 ∧
    ((packet_file_outputs hf0 str99 c9fab "Rx0y0" "Rx0y2" false true (some 42)
        [c5data]).getD 0 []).getD 8 0 = 62 ∧
    packet_file_outputs hf0 str0 c9fab "Rx0y0" "Rx0y2" false true (some 42) [c5data] ≠
      packet_file_outputs hf0 str99 c9fab "Rx0y0" "Rx0y2" false true (some 42) [c5data] := by
  have h63 : ((packet_file_outputs hf0 str0 c9fab "Rx0y0" "Rx0y2" false true (some 42)
      [c5data]).getD 0 []).getD 8 0 = 63 := rfl
  have h62 : ((packet_file_outputs hf0 str99 c9fab "Rx0y0" "Rx0y2" false true (some 42)
      [c5data]).getD 0 []).getD 8 0 = 62 := rfl
  refine ⟨fun _ _ _ _ _ _ _ _ => rfl, h63, h62, ?_⟩
  intro h
  rw [h] at h63
  rw [h62] at h63
  exact absurd h63 (by omega)
